import Mathlib

/-!
Verification of the whaapy-ai agent engine against its specification.

The definitions below are shallow embeddings of the Python source:
* `PRICING`, `getPricing`, `calculate_cost` embed `app/services/pricing.py`;
* numeric values are modelled as exact rationals (`ℚ`), and Python's
  `round(x, 8)` as `round8` below.
-/

/-- Pricing entry for one model: prices per 1,000,000 tokens
(`app/services/pricing.py`, `PRICING`). `cached_input` is `none` where the
Python table stores `None`. -/
structure ModelPricing where
  input : ℚ
  output : ℚ
  cached_input : Option ℚ
deriving DecidableEq, Repr

/-- The static pricing table (`app/services/pricing.py`, `PRICING`). -/
def PRICING : List (String × ModelPricing) := [
  ("gpt-5.1", ⟨1.25, 10.00, some 0.125⟩),
  ("gpt-5", ⟨1.25, 10.00, some 0.125⟩),
  ("gpt-5-mini", ⟨0.25, 2.00, some 0.025⟩),
  ("gpt-5-nano", ⟨0.05, 0.40, some 0.005⟩),
  ("gpt-5-chat-latest", ⟨1.25, 10.00, some 0.125⟩),
  ("gpt-5.1-chat-latest", ⟨1.25, 10.00, some 0.125⟩),
  ("gpt-5-codex", ⟨1.25, 10.00, some 0.125⟩),
  ("gpt-5.1-codex", ⟨1.25, 10.00, some 0.125⟩),
  ("gpt-5-pro", ⟨15.00, 120.00, none⟩),
  ("gpt-4.1", ⟨2.00, 8.00, some 0.50⟩),
  ("gpt-4.1-mini", ⟨0.40, 1.60, some 0.10⟩),
  ("gpt-4.1-nano", ⟨0.10, 0.40, some 0.025⟩),
  ("gpt-4o", ⟨2.50, 10.00, some 1.25⟩),
  ("gpt-4o-mini", ⟨0.15, 0.60, some 0.075⟩),
  ("gpt-4o-2024-05-13", ⟨5.00, 15.00, none⟩),
  ("gpt-4o-2024-08-06", ⟨2.50, 10.00, some 1.25⟩),
  ("o1", ⟨15.00, 60.00, some 7.50⟩),
  ("o1-pro", ⟨150.00, 600.00, none⟩),
  ("o3", ⟨2.00, 8.00, some 0.50⟩),
  ("o3-pro", ⟨20.00, 80.00, none⟩),
  ("o3-deep-research", ⟨10.00, 40.00, some 2.50⟩),
  ("o4-mini", ⟨1.10, 4.40, some 0.275⟩),
  ("o4-mini-deep-research", ⟨2.00, 8.00, some 0.50⟩),
  ("o3-mini", ⟨1.10, 4.40, some 0.55⟩),
  ("o1-mini", ⟨1.10, 4.40, some 0.55⟩),
  ("text-embedding-3-small", ⟨0.02, 0.0, none⟩),
  ("text-embedding-3-large", ⟨0.13, 0.0, none⟩),
  ("text-embedding-ada-002", ⟨0.10, 0.0, none⟩),
  ("openai/gpt-oss-120b", ⟨0.15, 0.60, some 0.075⟩),
  ("gpt-4-turbo-2024-04-09", ⟨10.00, 30.00, none⟩),
  ("gpt-3.5-turbo", ⟨0.50, 1.50, none⟩)]

/-- Default pricing used for unknown models
(`PRICING.get(model, {'input': 0.25, 'output': 2.00, 'cached_input': 0.025})`). -/
def defaultPricing : ModelPricing := ⟨0.25, 2.00, some 0.025⟩

/-- Table lookup with fallback, as in `calculate_cost`'s `PRICING.get`. -/
def getPricing (model : String) : ModelPricing :=
  (PRICING.lookup model).getD defaultPricing

/-- Python's `round(x, 8)`, modelled on exact rationals. -/
def round8 (x : ℚ) : ℚ := (round (x * 100000000) : ℤ) / 100000000

/-- Result record of `calculate_cost`. -/
structure CostResult where
  input_cost : ℚ
  output_cost : ℚ
  cached_cost : ℚ
  total_cost : ℚ
deriving DecidableEq, Repr

/-- `calculate_cost(model, input_tokens, output_tokens, cached_tokens)`
(`app/services/pricing.py`).  The cached branch mirrors Python's
`if cached_tokens > 0 and pricing.get('cached_input')`: `None` and `0.0`
are both falsy. -/
def calculate_cost (model : String) (input_tokens output_tokens : ℕ)
    (cached_tokens : ℕ) : CostResult :=
  let pricing := getPricing model
  let input_cost : ℚ := ((input_tokens : ℚ) / 1000000) * pricing.input
  let output_cost : ℚ := ((output_tokens : ℚ) / 1000000) * pricing.output
  let cached_cost : ℚ :=
    match pricing.cached_input with
    | some ci => if 0 < cached_tokens ∧ ci ≠ 0 then ((cached_tokens : ℚ) / 1000000) * ci else 0
    | none => 0
  { input_cost := round8 input_cost
    output_cost := round8 output_cost
    cached_cost := round8 cached_cost
    total_cost := round8 (input_cost + output_cost + cached_cost) }

/-- A price is an exact multiple of one cent. All `input`/`output` prices in
the table are; this is what makes the rounded cost components exact. -/
def centsExact (q : ℚ) : Prop := (q * 100).den = 1

/-! ### The agent graph (`app/services/agent_engine/graph.py` and nodes)

Message text is modelled as `List Char`.  Python's `str.lower` is modelled by
`Char.toLower` (ASCII case folding), and `kw in content` by `containsL`. -/

/-- `isPrefL p l` : `p` is a prefix of `l`. -/
def isPrefL : List Char → List Char → Bool
  | [], _ => true
  | _ :: _, [] => false
  | a :: xs, b :: ys => a == b && isPrefL xs ys

/-- Python's substring test `needle in hay`. -/
def containsL (needle : List Char) : List Char → Bool
  | [] => isPrefL needle []
  | a :: rest => isPrefL needle (a :: rest) || containsL needle rest

/-- Python's `str.lower()` (ASCII folding). -/
def lowerL (s : List Char) : List Char := s.map Char.toLower

/-- The four fast-path pattern classes of the smart router. -/
inductive PatClass
  | greeting
  | farewell
  | thanks
  | request_human
deriving DecidableEq, Repr

/-- `OBVIOUS_PATTERNS` (`nodes/smart_router.py`).  The list order is the
Python dict's insertion order, which drives first-match priority. -/
def OBVIOUS_PATTERNS : List (PatClass × List (List Char)) := [
  (.greeting, ["hola".toList, "buenos días".toList, "buenas tardes".toList,
    "buenas noches".toList, "hey".toList, "hi".toList, "buenas".toList]),
  (.farewell, ["adiós".toList, "adios".toList, "chao".toList, "chau".toList,
    "hasta luego".toList, "bye".toList, "nos vemos".toList]),
  (.thanks, ["gracias".toList, "thank".toList, "thanks".toList, "grazie".toList,
    "muchas gracias".toList]),
  (.request_human, ["hablar con".toList, "persona".toList, "humano".toList,
    "agente".toList, "operador".toList, "asesor".toList])]

/-- First pattern class one of whose keywords occurs in the message
(the `for intent_type, keywords in OBVIOUS_PATTERNS.items()` loop with
`break`). -/
def detectClass (content : List Char) : Option PatClass :=
  (OBVIOUS_PATTERNS.find? (fun p => p.2.any (fun kw => containsL kw content))).map (·.1)

/-- `classMatch pc content`: some keyword of the pattern set `pc` occurs
as a substring of `content` (the `any(kw in message_content for kw in
keywords)` test for one pattern set). -/
def classMatch (pc : PatClass) (content : List Char) : Bool :=
  ((OBVIOUS_PATTERNS.lookup pc).getD []).any (fun kw => containsL kw content)

/-- Message roles (`m.type` in the source). -/
inductive Role
  | human
  | ai
  | system
deriving DecidableEq, Repr

structure Msg where
  role : Role
  content : List Char
deriving DecidableEq, Repr

/-- Names of the graph nodes added in `create_agent_graph`. -/
inductive NName
  | smart_router
  | orchestrator
  | greet
  | optimized_rag
  | respond
  | handoff
  | validate_response
  | retry_respond
deriving DecidableEq, Repr

/-- `ai.agent_executions.status` values. -/
inductive ExecStatus
  | active
  | completed
  | failed
  | handoff
deriving DecidableEq, Repr

/-- The turn state (`state.py`, `AgentState`), restricted to the fields the
nodes and routers read or write.  `dbStatusWrites` is not a Python state
field: it records, in order, the status values written to
`ai.agent_executions` by nodes during the run (only `handoff_node` writes
one). -/
structure GState where
  messages : List Msg
  intent : Option String
  should_handoff : Bool
  handoff_reason : Option String
  is_first_message : Bool
  confidence : Option ℚ
  needs_knowledge_base : Option Bool
  kb_search_strategy : Option String
  search_queries : Option (List (List Char))
  complexity : Option String
  response_strategy : Option String
  customer_sentiment : Option String
  orchestrator_reasoning : Option String
  routing_decision : Option String
  suggest_handoff_in_response : Bool
  use_full_orchestrator : Option Bool
  retrieved_docs : Option (List (List Char))
  validation_passed : Option Bool
  quality_score : Option ℚ
  validation_issues : List String
  validation_feedback : String
  was_retried : Bool
  nodes_visited : List NName
  dbStatusWrites : List ExecStatus
deriving DecidableEq, Repr

/-- `create_initial_state` (`state.py`): one human message, planning fields
unset. -/
def create_initial_state (msg : List Char) : GState :=
  { messages := [⟨.human, msg⟩]
    intent := none
    should_handoff := false
    handoff_reason := none
    is_first_message := false
    confidence := none
    needs_knowledge_base := none
    kb_search_strategy := none
    search_queries := none
    complexity := none
    response_strategy := none
    customer_sentiment := none
    orchestrator_reasoning := none
    routing_decision := none
    suggest_handoff_in_response := false
    use_full_orchestrator := none
    retrieved_docs := none
    validation_passed := none
    quality_score := none
    validation_issues := []
    validation_feedback := ""
    was_retried := false
    nodes_visited := []
    dbStatusWrites := [] }

/-- The human messages of the state (`[m for m in state['messages'] if
m.type == 'human']`). -/
def humanMessages (s : GState) : List Msg :=
  s.messages.filter (fun m => m.role = .human)

/-- Appends a node name to the audit trail
(`'nodes_visited': state.get('nodes_visited', []) + [name]`). -/
def visit (s : GState) (n : NName) : GState :=
  { s with nodes_visited := s.nodes_visited ++ [n] }

/-- `smart_router_node` (`nodes/smart_router.py`): deterministic keyword
fast path. -/
def smart_router_node (s : GState) : GState :=
  match (humanMessages s).getLast? with
  | none => { visit s .smart_router with use_full_orchestrator := some true }
  | some last =>
    let is_first := (humanMessages s).length = 1
    let content := lowerL last.content
    match detectClass content with
    | none => { visit s .smart_router with use_full_orchestrator := some true }
    | some .greeting =>
      { visit s .smart_router with
        use_full_orchestrator := some false, intent := some "greeting",
        confidence := some 0.95, needs_knowledge_base := some false,
        kb_search_strategy := some "none", search_queries := some [],
        complexity := some "simple", should_handoff := false,
        handoff_reason := none, response_strategy := some "direct",
        customer_sentiment := some "neutral",
        orchestrator_reasoning := some "Fast-path: detected greeting pattern",
        is_first_message := is_first,
        routing_decision := some "fast_path_greeting" }
    | some .farewell =>
      { visit s .smart_router with
        use_full_orchestrator := some false, intent := some "other",
        confidence := some 0.95, needs_knowledge_base := some false,
        kb_search_strategy := some "none", search_queries := some [],
        complexity := some "simple", should_handoff := false,
        handoff_reason := none, response_strategy := some "direct",
        customer_sentiment := some "positive",
        orchestrator_reasoning := some "Fast-path: detected farewell pattern",
        is_first_message := is_first,
        routing_decision := some "fast_path_farewell" }
    | some .thanks =>
      { visit s .smart_router with
        use_full_orchestrator := some false, intent := some "other",
        confidence := some 0.95, needs_knowledge_base := some false,
        kb_search_strategy := some "none", search_queries := some [],
        complexity := some "simple", should_handoff := false,
        handoff_reason := none, response_strategy := some "direct",
        customer_sentiment := some "positive",
        orchestrator_reasoning := some "Fast-path: detected thanks pattern",
        is_first_message := is_first,
        routing_decision := some "fast_path_thanks" }
    | some .request_human =>
      { visit s .smart_router with
        use_full_orchestrator := some false, intent := some "request_human",
        confidence := some 0.95, needs_knowledge_base := some false,
        kb_search_strategy := some "none", search_queries := some [],
        complexity := some "simple", should_handoff := true,
        handoff_reason := some "Cliente solicitó explícitamente hablar con humano",
        response_strategy := some "deflect",
        customer_sentiment := some "neutral",
        orchestrator_reasoning := some "Fast-path: detected request for human agent",
        is_first_message := is_first,
        routing_decision := some "fast_path_handoff" }

/-- The structured JSON object returned by the orchestrator LLM call
(`ORCHESTRATOR_SCHEMA`).  Supplied as an oracle since the LLM is external. -/
structure OrchDecision where
  intent : String
  confidence : ℚ
  needs_knowledge_base : Bool
  kb_search_strategy : String
  search_queries : List (List Char)
  complexity : String
  should_handoff : Bool
  handoff_reason : Option String
  response_strategy : String
  customer_sentiment : String
  reasoning : String
deriving DecidableEq, Repr

/-- `orchestrator_node` (`nodes/orchestrator.py`).  `dec = none` models an
LLM or JSON-parse failure, absorbed by `_fallback_decision`. -/
def orchestrator_node (dec : Option OrchDecision) (s : GState) : GState :=
  match (humanMessages s).getLast? with
  | none =>
    -- `_default_state`
    { visit s .orchestrator with
      intent := some "other", confidence := some 0.5,
      needs_knowledge_base := some false, kb_search_strategy := some "none",
      search_queries := some [], complexity := some "simple",
      should_handoff := false, handoff_reason := none,
      response_strategy := some "direct", customer_sentiment := some "neutral",
      orchestrator_reasoning := some "No messages to analyze",
      routing_decision := some "direct_respond" }
  | some _ =>
    let is_first := (humanMessages s).length = 1
    match dec with
    | none =>
      -- `_fallback_decision`: note it does NOT set `is_first_message`.
      { visit s .orchestrator with
        intent := some "question", confidence := some 0.4,
        needs_knowledge_base := some true, kb_search_strategy := some "broad",
        search_queries := some ((s.messages.getLast?.map (·.content)).toList),
        complexity := some "medium", should_handoff := false,
        handoff_reason := none, response_strategy := some "with_context",
        customer_sentiment := some "neutral",
        orchestrator_reasoning := some "Fallback por error en orchestrator",
        routing_decision := some "fallback_kb_search" }
    | some d =>
      let routing : String :=
        if d.should_handoff then "force_handoff"
        else if d.confidence < 0.6 then "suggest_handoff"
        else if is_first then "greet"
        else if d.needs_knowledge_base then "retrieve_knowledge"
        else "direct_respond"
      { visit s .orchestrator with
        intent := some d.intent, confidence := some d.confidence,
        needs_knowledge_base := some d.needs_knowledge_base,
        kb_search_strategy := some d.kb_search_strategy,
        search_queries := some d.search_queries,
        complexity := some d.complexity, should_handoff := d.should_handoff,
        handoff_reason := d.handoff_reason,
        response_strategy := some d.response_strategy,
        customer_sentiment := some d.customer_sentiment,
        orchestrator_reasoning := some d.reasoning,
        routing_decision := some routing, is_first_message := is_first }

/-- `greet_node` (`nodes/greet.py`). -/
def greet_node (s : GState) : GState :=
  if 1 < (humanMessages s).length then visit s .greet
  else
    { visit s .greet with
      messages := s.messages ++ [⟨.ai, "¡Hola! 👋 ¿En qué puedo ayudarte hoy?".toList⟩] }

/-- `optimized_rag_node` (`nodes/optimized_rag.py`) at turn-state
granularity: `docs` is the final validated (or fallback) document list the
retrieval pipeline produced; the node stores it, or `none` when empty
(`'retrieved_docs': retrieved_docs if retrieved_docs else None`).  The
pipeline internals are modelled separately (`multi_query_search` below). -/
def optimized_rag_node (docs : List (List Char)) (s : GState) : GState :=
  match (humanMessages s).getLast? with
  | none => visit s .optimized_rag
  | some _ =>
    { visit s .optimized_rag with
      retrieved_docs := if docs.isEmpty then none else some docs }

/-- `respond_node` (`nodes/respond.py`): appends one assistant message;
`reply = none` models an LLM failure, replaced by the fixed graceful
message. -/
def respond_node (reply : Option (List Char)) (s : GState) : GState :=
  let content := reply.getD
    "Lo siento, tuve un problema al procesar tu mensaje. ¿Podrías intentar de nuevo?".toList
  { visit s .respond with messages := s.messages ++ [⟨.ai, content⟩] }

/-- `handoff_node` (`nodes/handoff.py`): writes `status = 'handoff'` on the
execution row and appends the transfer message. -/
def handoff_node (s : GState) : GState :=
  { visit s .handoff with
    dbStatusWrites := s.dbStatusWrites ++ [.handoff],
    messages := s.messages ++
      [⟨.ai, "Entiendo, te voy a conectar con un miembro de nuestro equipo. Un momento por favor... 👤".toList⟩] }

/-- The validator LLM's structured output (`VALIDATION_SCHEMA`). -/
structure VResult where
  passed : Bool
  quality_score : ℚ
  issues : List String
  suggestions : String
deriving DecidableEq, Repr

/-- `validate_response_node` (`nodes/validate_response.py`); `v = none`
models an exception, absorbed fail-open. -/
def validate_response_node (v : Option VResult) (s : GState) : GState :=
  if (s.messages.filter (fun m => m.role = .ai)).isEmpty then
    { visit s .validate_response with
      validation_passed := some true, quality_score := some 1.0,
      validation_issues := [], validation_feedback := "" }
  else
    match v with
    | some r =>
      { visit s .validate_response with
        validation_passed := some r.passed, quality_score := some r.quality_score,
        validation_issues := r.issues, validation_feedback := r.suggestions }
    | none =>
      { visit s .validate_response with
        validation_passed := some true, quality_score := some 0.8,
        validation_issues := ["Validation error"], validation_feedback := "" }

/-- `retry_respond_node` (`nodes/validate_response.py`): regenerates the
reply (`improved = none` models an LLM failure, keeping the original
reply); either way sets `was_retried = true`. -/
def retry_respond_node (improved : Option (List Char)) (s : GState) : GState :=
  match improved with
  | none => { visit s .retry_respond with was_retried := true }
  | some text =>
    let newMessages :=
      match s.messages.getLast? with
      | none => s.messages
      | some last => s.messages.filter (fun m => ¬(m.role = .ai ∧ m = last))
    { visit s .retry_respond with
      messages := newMessages ++ [⟨.ai, text⟩], was_retried := true }

/-- Routing targets reachable from the orchestrator
(`route_after_orchestrator`'s return strings / the conditional-edge map). -/
inductive ORoute
  | force_handoff
  | greet
  | optimized_rag
  | direct_respond
deriving DecidableEq, Repr

/-- `route_after_smart_router` (`graph.py`): `true` means the fast path
(edge to `respond`), `false` the edge to `orchestrator`. -/
def route_after_smart_router (s : GState) : Bool :=
  ¬(s.use_full_orchestrator.getD true)

/-- `route_after_orchestrator` (`graph.py`).  Returns the chosen edge and
the state as left by the router (it sets `suggest_handoff_in_response` in
the low-medium confidence band before continuing). -/
def route_after_orchestrator (s : GState) : ORoute × GState :=
  let confidence := s.confidence.getD 0.5
  if s.should_handoff ∨ confidence < 0.4 then (.force_handoff, s)
  else
    let s' := if 0.4 ≤ confidence ∧ confidence < 0.6 then
      { s with suggest_handoff_in_response := true } else s
    if s'.needs_knowledge_base.getD false then (.optimized_rag, s')
    else if s'.is_first_message then (.greet, s')
    else (.direct_respond, s')

/-- `route_after_respond` (`graph.py`): `true` = `END` (skip validation). -/
def route_after_respond (s : GState) : Bool :=
  (0.75 : ℚ) ≤ s.confidence.getD 1.0

/-- `route_after_validation` (`graph.py`): `true` = `END`. -/
def route_after_validation (s : GState) : Bool :=
  s.was_retried ∨ s.validation_passed.getD true

/-- Oracle values standing for the outcomes of the external LLM calls made
during one turn (`none` everywhere a call can fail). -/
structure Oracle where
  orch : Option OrchDecision
  ragDocs : List (List Char)
  reply : Option (List Char)
  valid : Option VResult
  retryReply : Option (List Char)
deriving DecidableEq, Repr

/-- The `respond → validate_response → retry_respond` tail of the compiled
graph (`create_agent_graph`): after `respond` the conditional edges of
`route_after_respond` and `route_after_validation` apply;
`retry_respond → END` is a fixed edge. -/
def respondPhase (o : Oracle) (s : GState) : GState :=
  let s1 := respond_node o.reply s
  if route_after_respond s1 then s1
  else
    let s2 := validate_response_node o.valid s1
    if route_after_validation s2 then s2
    else retry_respond_node o.retryReply s2

/-- One full run of the compiled Sprint-3 graph (`create_agent_graph`):
entry `smart_router`, conditional edges as wired there, `handoff → END`,
`greet → respond`, `optimized_rag → respond`. -/
def run_agent_graph (msg : List Char) (o : Oracle) : GState :=
  let s1 := smart_router_node (create_initial_state msg)
  if route_after_smart_router s1 then respondPhase o s1
  else
    let s2 := orchestrator_node o.orch s1
    match route_after_orchestrator s2 with
    | (.force_handoff, s3) => handoff_node s3
    | (.greet, s3) => respondPhase o (greet_node s3)
    | (.optimized_rag, s3) => respondPhase o (optimized_rag_node o.ragDocs s3)
    | (.direct_respond, s3) => respondPhase o s3

/-- The sequence of `ai.agent_executions.status` values written during
`AgentEngine.chat` on the path where the graph returns normally
(`engine.py`): the `active` INSERT, any node-level writes (the handoff
node's `status = 'handoff'` UPDATE), then the success branch's
unconditional `status = 'completed'` UPDATE. -/
def chat_status_trace (msg : List Char) (o : Oracle) : List ExecStatus :=
  .active :: (run_agent_graph msg o).dbStatusWrites ++ [.completed]

/-- Terminal statuses of an execution record. -/
def isTerminal : ExecStatus → Bool
  | .active => false
  | _ => true

/-! ### Routing as described by the specification (claim C3)

`claimed_routing` is modelled from the spec's words, NOT from the source:
"force_handoff if should_handoff ∨ confidence < 0.4; else suggest_handoff
if confidence < 0.6; else greet if is_first_message; else
retrieve_knowledge if needs_knowledge_base; else direct_respond", with
suggest_handoff setting the flag and continuing.  `amended_routing` is the
same with the greet/retrieve_knowledge priority swapped, which is what the
code implements.  The boolean result is "set
`suggest_handoff_in_response`". -/

def claimed_routing (should_handoff : Bool) (confidence : ℚ)
    (is_first : Bool) (needs_kb : Bool) : ORoute × Bool :=
  if should_handoff ∨ confidence < 0.4 then (.force_handoff, false)
  else
    let flag := confidence < 0.6
    if is_first then (.greet, flag)
    else if needs_kb then (.optimized_rag, flag)
    else (.direct_respond, flag)

def amended_routing (should_handoff : Bool) (confidence : ℚ)
    (is_first : Bool) (needs_kb : Bool) : ORoute × Bool :=
  if should_handoff ∨ confidence < 0.4 then (.force_handoff, false)
  else
    let flag := confidence < 0.6
    if needs_kb then (.optimized_rag, flag)
    else if is_first then (.greet, flag)
    else (.direct_respond, flag)

/-! ### LLM call tracker (`app/services/llm_tracker.py`) -/

/-- The mutable fields of `LLMCallTracker` relevant to the exit path.  On
`__init__`, token counts are zero and `error` is `None`; `record` overwrites
the token fields. -/
structure TrackerState where
  model : String
  input_tokens : ℕ
  output_tokens : ℕ
  cached_tokens : ℕ
  cache_hit : Bool
  error : Option String
deriving DecidableEq, Repr

/-- Tracker state right after `__init__` (token counts default to zero). -/
def initTracker (model : String) : TrackerState :=
  { model := model, input_tokens := 0, output_tokens := 0, cached_tokens := 0,
    cache_hit := false, error := none }

/-- `LLMCallTracker.record`. -/
def trackerRecord (t : TrackerState) (input_tokens output_tokens cached_tokens : ℕ)
    (cache_hit : Bool) : TrackerState :=
  { t with
    input_tokens := input_tokens
    output_tokens := output_tokens
    cached_tokens := cached_tokens
    cache_hit := cache_hit }

/-- The row written to `ai.llm_calls` by `_save_to_db`. -/
structure LLMCallRecord where
  model : String
  input_tokens : ℕ
  output_tokens : ℕ
  total_tokens : ℕ
  cached_tokens : ℕ
  costs : CostResult
  cache_hit : Bool
  error : Option String
deriving DecidableEq, Repr

/-- Result of `LLMCallTracker.__aexit__`: the record whose INSERT is
attempted, how many write attempts were made, whether persistence
succeeded, and which exception leaves the scope. -/
structure TrackerExit where
  record : LLMCallRecord
  writeAttempts : ℕ
  persisted : Bool
  raised : Option String
deriving DecidableEq, Repr

/-- `LLMCallTracker.__aexit__` together with `_save_to_db`.  `exc` is the
exception raised by the wrapped block (if any); `dbOk = false` models a
failure while persisting the record (caught and logged by `_save_to_db`).
`__aexit__` returns `False`, so `exc` always propagates unchanged. -/
def trackerExit (t : TrackerState) (exc : Option String) (dbOk : Bool) : TrackerExit :=
  let t' := match exc with
    | some e => { t with error := some e }
    | none => t
  let costs := calculate_cost t'.model t'.input_tokens t'.output_tokens t'.cached_tokens
  { record :=
      { model := t'.model, input_tokens := t'.input_tokens,
        output_tokens := t'.output_tokens,
        total_tokens := t'.input_tokens + t'.output_tokens,
        cached_tokens := t'.cached_tokens, costs := costs,
        cache_hit := t'.cache_hit, error := t'.error }
    writeAttempts := 1
    persisted := dbOk
    raised := exc }

/-! ### Multi-query merge and dedup (`nodes/optimized_rag.py`) -/

/-- A chunk as returned by `hybrid_search`, restricted to the fields
`multi_query_search` reads. -/
structure Chunk where
  document_id : String
  chunk_index : ℕ
  content : String
  combined_score : ℚ
deriving DecidableEq, Repr

/-- Dedup key `(document_id, chunk_index)`. -/
def chunkKey (c : Chunk) : String × ℕ := (c.document_id, c.chunk_index)

/-- One `chunks_by_id[chunk_key] = ...` update: replace the stored chunk
for the key only when the new `combined_score` is strictly greater. -/
def insertChunk (c : Chunk) : List Chunk → List Chunk
  | [] => [c]
  | d :: rest =>
    if chunkKey d = chunkKey c then
      (if d.combined_score < c.combined_score then c else d) :: rest
    else d :: insertChunk c rest

/-- The merge loop of `multi_query_search`: per-query results in order
(`none` = a query that raised, skipped by the `isinstance(result,
Exception)` branch), folded into the dedup dictionary. -/
def mergeChunkLists (results : List (Option (List Chunk))) : List Chunk :=
  results.foldl (fun acc r =>
    match r with
    | none => acc
    | some l => l.foldl (fun a c => insertChunk c a) acc) []

/-- Descending order on `combined_score`
(`merged_chunks.sort(key=lambda x: x['combined_score'], reverse=True)`). -/
def scoreDesc (a b : Chunk) : Prop := b.combined_score ≤ a.combined_score

instance : DecidableRel scoreDesc := fun a b =>
  inferInstanceAs (Decidable (b.combined_score ≤ a.combined_score))

/-- `multi_query_search` after the `asyncio.gather`: merge, dedup, sort
descending by `combined_score`. -/
def multi_query_search (results : List (Option (List Chunk))) : List Chunk :=
  (mergeChunkLists results).insertionSort scoreDesc

/-- All chunks contributed by the successful queries. -/
def allChunks (results : List (Option (List Chunk))) : List Chunk :=
  results.foldr (fun r acc =>
    match r with
    | none => acc
    | some l => l ++ acc) []

/-- Invariant of the merge loop: the accumulator holds exactly one chunk
per key of the processed chunks, each with the maximal `combined_score`
among the processed chunks of its key, and every accumulator chunk is a
processed chunk. -/
def MergeInv (processed acc : List Chunk) : Prop :=
  (acc.map chunkKey).Nodup ∧
  (∀ c ∈ acc, c ∈ processed ∧
    ∀ d ∈ processed, chunkKey d = chunkKey c → d.combined_score ≤ c.combined_score) ∧
  (∀ d ∈ processed, ∃ c ∈ acc, chunkKey c = chunkKey d)

/-- Sample chunks with one duplicated key, used in the C7 witness. -/
def chunkA : Chunk := ⟨"doc1", 0, "tarifas parte 1", 0.5⟩

def chunkB : Chunk := ⟨"doc2", 3, "horarios", 0.9⟩

def chunkA2 : Chunk := ⟨"doc1", 0, "tarifas parte 1", 0.8⟩

/-- Per-query hybrid-search outcomes: two successful queries and one
failed one, with `chunkA`/`chunkA2` sharing a key. -/
def sampleResults : List (Option (List Chunk)) :=
  [some [chunkA, chunkB], none, some [chunkA2]]

/-! ### Conversation summary refresh policy
(`conversation_memory.py`, `get_or_create_summary`) -/

/-- The stored summary as read back from `conversations.summary`:
`message_count` via `.get('message_count', 0)`, and the age in hours of
`last_updated_at` relative to `datetime.now()` (`none` when the field is
missing or unparsable, in which case the age criterion is skipped). -/
structure StoredSummary where
  message_count : ℤ
  age_hours : Option ℚ
deriving DecidableEq, Repr

/-- The three observable outcomes of `get_or_create_summary`. -/
inductive SummaryOutcome
  | regenerate
  | cached
  | nothing
deriving DecidableEq, Repr

/-- The refresh decision of `get_or_create_summary`, given the stored
summary (`none` when the row has no truthy summary) and
`current_message_count = len(messages)`. -/
def summary_refresh_decision (existing : Option StoredSummary)
    (current_message_count : ℕ) : SummaryOutcome :=
  match existing with
  | none => .regenerate
  | some s =>
    if current_message_count < 5 then .nothing
    else
      let refreshA : Bool := decide (10 ≤ (current_message_count : ℤ) - s.message_count)
      let refreshB : Bool := match s.age_hours with
        | some a => decide ((24 : ℚ) < a)
        | none => false
      if refreshA || refreshB then .regenerate else .cached

/-- Modelled from the spec words of claim C8, NOT from the source:
"regenerated exactly when (a) no summary exists and the conversation has at
least 5 messages, or (b) at least 10 new messages arrived since the last
summary, or (c) the stored summary is older than 24 hours". -/
def claimed_regenerate (existing : Option StoredSummary) (n : ℕ) : Prop :=
  (existing = none ∧ 5 ≤ n) ∨
  (∃ s, existing = some s ∧ 10 ≤ (n : ℤ) - s.message_count) ∨
  (∃ s, existing = some s ∧ ∃ a, s.age_hours = some a ∧ 24 < a)

/-! ### Prompt variable interpolation
(`prompt_composer.py`, `compose_system_prompt` steps 2-3) -/

/-- Python's `str.replace(needle, repl)` on character lists (left-to-right,
non-overlapping; the placeholders used here are never empty). -/
def replaceAllL (needle repl : List Char) : List Char → List Char
  | [] => []
  | a :: rest =>
    if isPrefL needle (a :: rest) ∧ needle ≠ [] then
      repl ++ replaceAllL needle repl (List.drop (needle.length - 1) rest)
    else a :: replaceAllL needle repl rest
termination_by l => l.length
decreasing_by
  all_goals simp [List.length_drop]
  all_goals omega

/-- The placeholder `f'\x7b{var_name}\x7d'`: an opening brace, the name,
a closing brace. -/
def placeholderL (name : String) : List Char :=
  '\x7b' :: (name.toList ++ ['\x7d'])

/-- `needle` occurs as a contiguous substring of `hay`. -/
def OccursIn (needle hay : List Char) : Prop :=
  ∃ u v, hay = u ++ needle ++ v

/-- `_inject_system_variables`: for each system variable in order, replace
its placeholder by the computed value; a `none` value models an exception
in the value lambda, on which the placeholder is kept. -/
def injectSystemVariables (sysVars : List (String × Option String))
    (prompt : List Char) : List Char :=
  sysVars.foldl (fun p nv =>
    match nv.2 with
    | none => p
    | some v => replaceAllL (placeholderL nv.1) v.toList p) prompt

/-- `compose_system_prompt` step 3: for each entry of
`config.custom_variables`, replace its placeholder by the value. -/
def injectCustomVariables (customVars : List (String × String))
    (prompt : List Char) : List Char :=
  customVars.foldl (fun p nv => replaceAllL (placeholderL nv.1) nv.2.toList p) prompt

/-- `compose_system_prompt` steps 2-3 on a non-empty base prompt: system
variables are injected only when `enable_dynamic_variables` is truthy;
custom variables are then injected unconditionally. -/
def composeInterpolation (enableDyn : Bool)
    (sysVars : List (String × Option String))
    (customVars : List (String × String)) (base : List Char) : List Char :=
  injectCustomVariables customVars
    (if enableDyn then injectSystemVariables sysVars base else base)

/-- Base prompt used in the C9 witness: one system placeholder, one custom
placeholder, and one placeholder matching no variable. -/
def baseC9 : List Char :=
  "Hola \x7bcustomer_name\x7d, sé \x7btone\x7d, deja \x7bqueso\x7d.".toList

/-- A name that contains no brace characters (every variable name the
composer documents, and every name used in the theorems below). -/
def braceFree (name : List Char) : Prop :=
  ∀ c ∈ name, c ≠ '\x7b' ∧ c ≠ '\x7d'

/-! ### Concrete scenario data used in the theorems below -/

/-- Oracle for turns in which no LLM output matters (fast paths). -/
def noCallOracle : Oracle := ⟨none, [], none, none, none⟩

/-- An orchestrator decision requesting a handoff (scenario S6-style). -/
def handoffDecision : OrchDecision :=
  { intent := "request_human", confidence := 0.9, needs_knowledge_base := false,
    kb_search_strategy := "none", search_queries := [], complexity := "simple",
    should_handoff := true, handoff_reason := some "Cliente pide humano",
    response_strategy := "deflect", customer_sentiment := "neutral",
    reasoning := "el cliente pide un humano" }

/-- Oracle whose orchestrator call returns `handoffDecision`. -/
def handoffOracle : Oracle := ⟨some handoffDecision, [], none, none, none⟩

/-- A low-confidence orchestrator decision (scenario S5-style). -/
def lowConfDecision : OrchDecision :=
  { intent := "question", confidence := 0.5, needs_knowledge_base := false,
    kb_search_strategy := "none", search_queries := [], complexity := "simple",
    should_handoff := false, handoff_reason := none,
    response_strategy := "direct", customer_sentiment := "neutral",
    reasoning := "pregunta ambigua" }

/-- Oracle producing one failed validation followed by a retry. -/
def retryOracle : Oracle :=
  ⟨some lowConfDecision, [], some "primera respuesta".toList,
    some ⟨false, 0.55, ["vaga"], "sé más específico"⟩,
    some "respuesta mejorada".toList⟩

/-- A state as left by the orchestrator on a confident first message that
needs the knowledge base (used against claim C3's routing order). -/
def c3State : GState :=
  { create_initial_state "m".toList with
    confidence := some 0.7, is_first_message := true,
    needs_knowledge_base := some true, should_handoff := false }

-- Helper: a lookup in a literal association list yields one of its values.
theorem lookup_forall {α β : Type} [BEq α] [LawfulBEq α]
    (Q : β → Prop) (l : List (α × β)) (hall : ∀ x ∈ l, Q x.2) :
    ∀ k v, l.lookup k = some v → Q v := by
  induction l with
  | nil => intro k v h; simp [List.lookup] at h
  | cons hd tl ih =>
    intro k v h
    simp only [List.lookup] at h
    by_cases hk : k == hd.1
    · simp [hk] at h
      exact h ▸ hall hd (by simp)
    · simp [hk] at h
      exact ih (fun x hx => hall x (by simp [hx])) k v h

theorem pricing_entries_wf :
    ∀ x ∈ PRICING, centsExact x.2.input ∧ centsExact x.2.output ∧
      ∀ ci, x.2.cached_input = some ci → ci ≠ 0 := by
  intro x hx
  fin_cases hx <;>
    refine ⟨by norm_num [centsExact, Rat.den], by norm_num [centsExact, Rat.den], ?_⟩ <;>
    intro ci hc <;> simp_all <;> norm_num [← hc]

theorem default_pricing_wf :
    centsExact defaultPricing.input ∧ centsExact defaultPricing.output ∧
      ∀ ci, defaultPricing.cached_input = some ci → ci ≠ 0 := by
  refine ⟨by norm_num [defaultPricing, centsExact, Rat.den],
    by norm_num [defaultPricing, centsExact, Rat.den], ?_⟩
  intro ci hc
  simp [defaultPricing] at hc
  norm_num [← hc]

theorem getPricing_wf (model : String) :
    centsExact (getPricing model).input ∧ centsExact (getPricing model).output ∧
      ∀ ci, (getPricing model).cached_input = some ci → ci ≠ 0 := by
  unfold getPricing
  cases h : PRICING.lookup model with
  | none => simpa using default_pricing_wf
  | some p =>
    simpa using
      lookup_forall
        (fun v : ModelPricing => centsExact v.input ∧ centsExact v.output ∧
          ∀ ci, v.cached_input = some ci → ci ≠ 0)
        PRICING pricing_entries_wf model p h

-- A rational whose product with 10^8 is an integer is returned unchanged by
-- 8-decimal rounding.
theorem round8_of_scaled (x : ℚ) (n : ℤ) (hx : x * 100000000 = n) :
    round8 x = x := by
  unfold round8
  rw [hx, round_intCast]
  field_simp [← hx]

theorem round8_add_scaled (x y : ℚ) (n : ℤ) (hx : x * 100000000 = n) :
    round8 (x + y) = x + round8 y := by
  unfold round8
  have h : (x + y) * 100000000 = (n : ℚ) + y * 100000000 := by
    rw [← hx]; ring
  rw [h, round_int_add]
  push_cast
  rw [add_div]
  congr 1
  rw [eq_comm, eq_div_iff (by norm_num)]
  exact hx

-- Token cost components are integer multiples of 10^-8 whenever the price is
-- an exact number of cents per million tokens.
theorem scaled_of_cents (t : ℕ) (p : ℚ) (h : centsExact p) :
    ∃ n : ℤ, ((t : ℚ) / 1000000 * p) * 100000000 = n := by
  refine ⟨t * (p * 100).num, ?_⟩
  have hp : ((p * 100).num : ℚ) = p * 100 := by
    conv_rhs => rw [← Rat.num_div_den (p * 100)]
    rw [h]
    simp
  push_cast
  rw [hp]
  ring

/-! ### Structural facts about the graph nodes -/

theorem respond_node_fields (r : Option (List Char)) (s : GState) :
    (respond_node r s).nodes_visited = s.nodes_visited ++ [.respond] ∧
    (respond_node r s).confidence = s.confidence ∧
    (respond_node r s).was_retried = s.was_retried ∧
    (respond_node r s).validation_passed = s.validation_passed := by
  simp [respond_node, visit]

theorem validate_node_fields (v : Option VResult) (s : GState) :
    (validate_response_node v s).nodes_visited = s.nodes_visited ++ [.validate_response] ∧
    (validate_response_node v s).confidence = s.confidence ∧
    (validate_response_node v s).was_retried = s.was_retried := by
  unfold validate_response_node
  split <;> rcases v with _ | r <;> simp [visit]

theorem retry_node_fields (t : Option (List Char)) (s : GState) :
    (retry_respond_node t s).nodes_visited = s.nodes_visited ++ [.retry_respond] ∧
    (retry_respond_node t s).confidence = s.confidence ∧
    (retry_respond_node t s).was_retried = true := by
  unfold retry_respond_node
  rcases t with _ | text
  · simp [visit]
  · rcases s.messages.getLast? with _ | last <;> simp [visit]

theorem greet_node_fields (s : GState) :
    (greet_node s).nodes_visited = s.nodes_visited ++ [.greet] ∧
    (greet_node s).confidence = s.confidence ∧
    (greet_node s).was_retried = s.was_retried := by
  unfold greet_node
  split <;> simp [visit]

theorem rag_node_fields (docs : List (List Char)) (s : GState) :
    (optimized_rag_node docs s).nodes_visited = s.nodes_visited ++ [.optimized_rag] ∧
    (optimized_rag_node docs s).confidence = s.confidence ∧
    (optimized_rag_node docs s).was_retried = s.was_retried := by
  unfold optimized_rag_node
  rcases (humanMessages s).getLast? with _ | m <;> simp [visit]

theorem handoff_node_fields (s : GState) :
    (handoff_node s).nodes_visited = s.nodes_visited ++ [.handoff] ∧
    (handoff_node s).confidence = s.confidence ∧
    (handoff_node s).was_retried = s.was_retried ∧
    (handoff_node s).dbStatusWrites = s.dbStatusWrites ++ [.handoff] := by
  simp [handoff_node, visit]

theorem orchestrator_node_fields (dec : Option OrchDecision) (s : GState) :
    (orchestrator_node dec s).nodes_visited = s.nodes_visited ++ [.orchestrator] ∧
    (orchestrator_node dec s).was_retried = s.was_retried := by
  unfold orchestrator_node
  rcases (humanMessages s).getLast? with _ | m <;> rcases dec with _ | d <;> simp [visit]

theorem route_after_orchestrator_preserves (s : GState) :
    ((route_after_orchestrator s).2).nodes_visited = s.nodes_visited ∧
    ((route_after_orchestrator s).2).confidence = s.confidence ∧
    ((route_after_orchestrator s).2).was_retried = s.was_retried := by
  unfold route_after_orchestrator
  dsimp only
  split_ifs <;> simp

/-- Shape of the `respond → validate → retry` phase: it appends `respond`
followed by one of three tails, preserves `confidence`, and produces no
tail at high confidence. -/
theorem respondPhase_shape (o : Oracle) (s : GState) :
    ∃ tail, (respondPhase o s).nodes_visited = s.nodes_visited ++ NName.respond :: tail ∧
      (respondPhase o s).confidence = s.confidence ∧
      (tail = [] ∨ tail = [.validate_response] ∨
        tail = [.validate_response, .retry_respond]) ∧
      ((3 / 4 : ℚ) ≤ s.confidence.getD 1.0 → tail = []) := by
  obtain ⟨hv1, hc1, hr1, -⟩ := respond_node_fields o.reply s
  unfold respondPhase
  by_cases h1 : route_after_respond (respond_node o.reply s)
  · refine ⟨[], ?_⟩
    simp [h1, hv1, hc1]
  · have hconf : s.confidence.getD 1.0 < 3 / 4 := by
      have h1' := h1
      simp [route_after_respond, hc1] at h1'
      norm_num at h1' ⊢
      exact h1'
    obtain ⟨hv2, hc2, hr2⟩ := validate_node_fields o.valid (respond_node o.reply s)
    by_cases h2 : route_after_validation (validate_response_node o.valid (respond_node o.reply s))
    · refine ⟨[.validate_response], ?_⟩
      simp [h1, h2, hv2, hv1, hc2, hc1]
      exact hconf
    · obtain ⟨hv3, hc3, -⟩ :=
        retry_node_fields o.retryReply (validate_response_node o.valid (respond_node o.reply s))
      refine ⟨[.validate_response, .retry_respond], ?_⟩
      simp [h1, h2, hv3, hv2, hv1, hc3, hc2, hc1]
      exact hconf

theorem smart_router_init_fields (msg : List Char) :
    (smart_router_node (create_initial_state msg)).nodes_visited = [.smart_router] ∧
    (route_after_smart_router (smart_router_node (create_initial_state msg)) = true →
      (smart_router_node (create_initial_state msg)).confidence = some 0.95) := by
  unfold smart_router_node
  rcases h : (humanMessages (create_initial_state msg)).getLast? with _ | m
  · simp [h, create_initial_state, visit, route_after_smart_router]
  · rcases hd : detectClass (lowerL m.content) with _ | pc
    · simp [h, hd, create_initial_state, visit, route_after_smart_router]
    · cases pc <;> simp [h, hd, create_initial_state, visit, route_after_smart_router]

/-- C5: for every turn, if `confidence ≥ 0.75` then neither
`validate_response` nor `retry_respond` appears in `nodes_visited`;
`retry_respond` executes at most once per turn, and once it has run the
graph terminates (it is the last node visited). -/
theorem validation_skipped_and_retry_once (msg : List Char) (o : Oracle) :
    ((0.75 : ℚ) ≤ (run_agent_graph msg o).confidence.getD 1.0 →
      NName.validate_response ∉ (run_agent_graph msg o).nodes_visited ∧
      NName.retry_respond ∉ (run_agent_graph msg o).nodes_visited) ∧
    (run_agent_graph msg o).nodes_visited.count .retry_respond ≤ 1 ∧
    (NName.retry_respond ∈ (run_agent_graph msg o).nodes_visited →
      (run_agent_graph msg o).nodes_visited.getLast? = some .retry_respond) := by
  have h34 : (0.75 : ℚ) = 3 / 4 := by norm_num
  obtain ⟨hsv, hsc⟩ := smart_router_init_fields msg
  unfold run_agent_graph
  by_cases hroute : route_after_smart_router (smart_router_node (create_initial_state msg))
  · obtain ⟨tail, hv, hc, htail, hhigh⟩ :=
      respondPhase_shape o (smart_router_node (create_initial_state msg))
    have htail0 : tail = [] := by
      apply hhigh
      rw [hsc hroute]
      norm_num
    simp only [hroute, if_true]
    rw [h34]
    simp [hv, htail0, hsv, hc]
  · simp only [hroute, if_false, Bool.false_eq_true]
    obtain ⟨hov, -⟩ :=
      orchestrator_node_fields o.orch (smart_router_node (create_initial_state msg))
    rcases h3 : route_after_orchestrator
        (orchestrator_node o.orch (smart_router_node (create_initial_state msg))) with ⟨r3, s3⟩
    obtain ⟨hpv, hpc, -⟩ := route_after_orchestrator_preserves
      (orchestrator_node o.orch (smart_router_node (create_initial_state msg)))
    rw [h3] at hpv hpc
    have hs3v : s3.nodes_visited = [.smart_router, .orchestrator] := by
      simp at hpv
      simp [hpv, hov, hsv]
    cases r3 with
    | force_handoff =>
      obtain ⟨hhv, -, -, -⟩ := handoff_node_fields s3
      rw [h34]
      simp [hhv, hs3v]
    | greet =>
      obtain ⟨hgv, hgc, -⟩ := greet_node_fields s3
      obtain ⟨tail, hv, hc, htail, hhigh⟩ := respondPhase_shape o (greet_node s3)
      rw [h34]
      rcases htail with rfl | rfl | rfl <;>
        simp [hv, hgv, hs3v, hc, hgc] <;>
        exact lt_of_not_le fun hle =>
          absurd (hhigh (by rw [hgc]; exact hle)) (by simp)
    | optimized_rag =>
      obtain ⟨hgv, hgc, -⟩ := rag_node_fields o.ragDocs s3
      obtain ⟨tail, hv, hc, htail, hhigh⟩ := respondPhase_shape o (optimized_rag_node o.ragDocs s3)
      rw [h34]
      rcases htail with rfl | rfl | rfl <;>
        simp [hv, hgv, hs3v, hc, hgc] <;>
        exact lt_of_not_le fun hle =>
          absurd (hhigh (by rw [hgc]; exact hle)) (by simp)
    | direct_respond =>
      obtain ⟨tail, hv, hc, htail, hhigh⟩ := respondPhase_shape o s3
      rw [h34]
      rcases htail with rfl | rfl | rfl <;>
        simp [hv, hs3v, hc] <;>
        exact lt_of_not_le fun hle => absurd (hhigh hle) (by simp)

/-- Witness for C5: the greeting fast path (confidence 0.95) skips
validation, and a low-confidence failed validation retries exactly once,
with `retry_respond` as the final node. -/
theorem validation_skipped_and_retry_once_witness :
    ((0.75 : ℚ) ≤ (run_agent_graph "hola".toList noCallOracle).confidence.getD 1.0 ∧
      NName.validate_response ∉ (run_agent_graph "hola".toList noCallOracle).nodes_visited ∧
      NName.retry_respond ∉ (run_agent_graph "hola".toList noCallOracle).nodes_visited) ∧
    (NName.retry_respond ∈
        (run_agent_graph "cuanto cuesta el servicio".toList retryOracle).nodes_visited ∧
      (run_agent_graph "cuanto cuesta el servicio".toList retryOracle).nodes_visited.getLast?
        = some .retry_respond) := by
  have h1 : (0.75 : ℚ) ≤ (run_agent_graph "hola".toList noCallOracle).confidence.getD 1.0 := by
    simp [run_agent_graph, smart_router_node, create_initial_state, humanMessages,
      detectClass, OBVIOUS_PATTERNS, containsL, isPrefL, lowerL, noCallOracle,
      route_after_smart_router, respondPhase, respond_node, route_after_respond, visit]
    norm_num
  have h2 : NName.retry_respond ∈
      (run_agent_graph "cuanto cuesta el servicio".toList retryOracle).nodes_visited := by
    simp [run_agent_graph, smart_router_node, create_initial_state, humanMessages,
      detectClass, OBVIOUS_PATTERNS, containsL, isPrefL, lowerL, retryOracle,
      lowConfDecision, orchestrator_node, route_after_orchestrator, greet_node,
      route_after_smart_router, respondPhase, respond_node, route_after_respond,
      validate_response_node, route_after_validation, retry_respond_node, visit]
    norm_num
  exact ⟨⟨h1, (validation_skipped_and_retry_once "hola".toList noCallOracle).1 h1⟩,
    ⟨h2, (validation_skipped_and_retry_once "cuanto cuesta el servicio".toList retryOracle).2.2 h2⟩⟩

set_option maxHeartbeats 1000000 in
/-- C1: the claim says the `request_human` fast path routes the graph from
`smart_router` directly to `handoff` with execution status `handoff`.  The
code does not: `route_after_smart_router` sends every fast path (including
`request_human`, for which the smart router itself sets `should_handoff =
true` and `routing_decision = 'fast_path_handoff'`) to `respond`, so on the
input "quiero hablar con una persona" the visited nodes are
`[smart_router, respond]`, the handoff node never runs, and the engine's
success branch records status `completed`. -/
theorem fast_path_request_human_routing :
    (run_agent_graph "quiero hablar con una persona".toList noCallOracle).nodes_visited
      = [.smart_router, .respond] ∧
    NName.handoff ∉
      (run_agent_graph "quiero hablar con una persona".toList noCallOracle).nodes_visited ∧
    (run_agent_graph "quiero hablar con una persona".toList noCallOracle).should_handoff
      = true ∧
    chat_status_trace "quiero hablar con una persona".toList noCallOracle
      = [.active, .completed] := by
  have h95 : (0.75 : ℚ) ≤ 0.95 := by norm_num
  refine ⟨?_, ?_, ?_, ?_⟩ <;>
    simp [h95, run_agent_graph, chat_status_trace, smart_router_node, create_initial_state,
      humanMessages, detectClass, OBVIOUS_PATTERNS, containsL, isPrefL, lowerL,
      noCallOracle, route_after_smart_router, respondPhase, respond_node,
      route_after_respond, visit]

set_option maxHeartbeats 1000000 in
/-- C2: the claim says each execution record receives exactly one terminal
status.  On a turn where the orchestrator decides to hand off, the handoff
node writes `status = 'handoff'` and then `AgentEngine.chat`'s success
branch unconditionally writes `status = 'completed'`: two distinct terminal
statuses are written to the same execution record. -/
theorem two_terminal_statuses_on_handoff_turn :
    (run_agent_graph "necesito ayuda con mi factura".toList handoffOracle).nodes_visited
      = [.smart_router, .orchestrator, .handoff] ∧
    (chat_status_trace "necesito ayuda con mi factura".toList handoffOracle).filter isTerminal
      = [.handoff, .completed] ∧
    ExecStatus.handoff ≠ ExecStatus.completed := by
  refine ⟨?_, ?_, by simp⟩ <;>
    simp [run_agent_graph, chat_status_trace, smart_router_node, create_initial_state,
      humanMessages, detectClass, OBVIOUS_PATTERNS, containsL, isPrefL, lowerL,
      handoffOracle, handoffDecision, orchestrator_node, route_after_orchestrator,
      route_after_smart_router, handoff_node, isTerminal, visit]

/-- C3 counterexample: on a confident (0.7) first message that needs the
knowledge base, the claim's routing order says `greet`, but
`route_after_orchestrator` checks `needs_knowledge_base` first and routes
to `optimized_rag` (retrieve_knowledge). -/
theorem routing_order_claim_counterexample :
    (route_after_orchestrator c3State).1 = .optimized_rag ∧
    (claimed_routing c3State.should_handoff (c3State.confidence.getD 0.5)
        c3State.is_first_message (c3State.needs_knowledge_base.getD false)).1 = .greet ∧
    ORoute.optimized_rag ≠ ORoute.greet := by
  have h1 : ¬((0.7 : ℚ) < 0.4) := by norm_num
  have h2 : ¬((0.7 : ℚ) < 0.6) := by norm_num
  have h3 : ¬((0.4 : ℚ) ≤ (0.7 : ℚ) ∧ (0.7 : ℚ) < 0.6) := by norm_num
  refine ⟨?_, ?_, by simp⟩ <;>
    simp [route_after_orchestrator, claimed_routing, c3State, create_initial_state,
      h1, h2, h3]

/-- C3 amended: the routing of `route_after_orchestrator` is exactly the
claim's rule with the `greet`/`retrieve_knowledge` priorities swapped
(knowledge-base retrieval is checked before the first-message greeting),
the suggest-handoff flag being set exactly when the route is not
`force_handoff` and `confidence < 0.6`. -/
theorem route_after_orchestrator_amended_spec (s : GState) :
    route_after_orchestrator s =
      ((amended_routing s.should_handoff (s.confidence.getD 0.5) s.is_first_message
          (s.needs_knowledge_base.getD false)).1,
        if (amended_routing s.should_handoff (s.confidence.getD 0.5) s.is_first_message
            (s.needs_knowledge_base.getD false)).2
        then { s with suggest_handoff_in_response := true } else s) := by
  unfold route_after_orchestrator amended_routing
  dsimp only
  by_cases h1 : s.should_handoff = true ∨ s.confidence.getD 0.5 < 0.4
  · simp [h1]
  · have h14 : (0.4 : ℚ) ≤ s.confidence.getD 0.5 := by
      push_neg at h1
      exact h1.2
    by_cases h2 : s.confidence.getD 0.5 < 0.6
    · have hband : (0.4 : ℚ) ≤ s.confidence.getD 0.5 ∧ s.confidence.getD 0.5 < 0.6 :=
        ⟨h14, h2⟩
      by_cases h3 : s.needs_knowledge_base.getD false = true <;>
        by_cases h4 : s.is_first_message = true <;>
        simp [h1, h2, hband, h3, h4]
    · have hband : ¬((0.4 : ℚ) ≤ s.confidence.getD 0.5 ∧ s.confidence.getD 0.5 < 0.6) := by
        intro h
        exact h2 h.2
      by_cases h3 : s.needs_knowledge_base.getD false = true <;>
        by_cases h4 : s.is_first_message = true <;>
        simp [h1, h2, hband, h3, h4]

/-- C4: `calculate_cost` returns the three 8-decimal-rounded components, a
zero cached component when `cached_tokens = 0` or the model has no cached
price, a total equal to the sum of the three stored components (exactly,
hence in particular to 8 decimals), and falls back to the `gpt-5-mini`
prices for every model not in the table; recomputing the cost from the
token counts stored in an LLM call record yields the stored costs. -/
theorem calculate_cost_spec (model : String) (input_tokens output_tokens cached_tokens : ℕ) :
    (calculate_cost model input_tokens output_tokens cached_tokens).input_cost
        = round8 ((input_tokens : ℚ) / 1000000 * (getPricing model).input) ∧
    (calculate_cost model input_tokens output_tokens cached_tokens).output_cost
        = round8 ((output_tokens : ℚ) / 1000000 * (getPricing model).output) ∧
    (∀ ci, (getPricing model).cached_input = some ci → 0 < cached_tokens →
      (calculate_cost model input_tokens output_tokens cached_tokens).cached_cost
        = round8 ((cached_tokens : ℚ) / 1000000 * ci)) ∧
    (cached_tokens = 0 ∨ (getPricing model).cached_input = none →
      (calculate_cost model input_tokens output_tokens cached_tokens).cached_cost = 0) ∧
    (calculate_cost model input_tokens output_tokens cached_tokens).total_cost
        = (calculate_cost model input_tokens output_tokens cached_tokens).input_cost
          + (calculate_cost model input_tokens output_tokens cached_tokens).output_cost
          + (calculate_cost model input_tokens output_tokens cached_tokens).cached_cost ∧
    (PRICING.lookup model = none → getPricing model = getPricing "gpt-5-mini") ∧
    (∀ exc dbOk t, calculate_cost (trackerExit t exc dbOk).record.model
        (trackerExit t exc dbOk).record.input_tokens
        (trackerExit t exc dbOk).record.output_tokens
        (trackerExit t exc dbOk).record.cached_tokens
      = (trackerExit t exc dbOk).record.costs) := by
  obtain ⟨hin, hout, hciz⟩ := getPricing_wf model
  obtain ⟨nA, hA⟩ := scaled_of_cents input_tokens _ hin
  obtain ⟨nB, hB⟩ := scaled_of_cents output_tokens _ hout
  refine ⟨rfl, rfl, ?_, ?_, ?_, ?_, ?_⟩
  · intro ci hci hpos
    simp only [calculate_cost, hci]
    rw [if_pos ⟨hpos, hciz ci hci⟩]
  · rintro (rfl | hnone)
    · simp only [calculate_cost]
      rcases h : (getPricing model).cached_input with _ | ci <;> simp [h, round8]
    · simp only [calculate_cost, hnone]
      simp [round8]
  · simp only [calculate_cost]
    have hassoc : ((input_tokens : ℚ) / 1000000 * (getPricing model).input)
        + ((output_tokens : ℚ) / 1000000 * (getPricing model).output)
        + (match (getPricing model).cached_input with
          | some ci => if 0 < cached_tokens ∧ ci ≠ 0
              then ((cached_tokens : ℚ) / 1000000) * ci else 0
          | none => 0)
        = ((input_tokens : ℚ) / 1000000 * (getPricing model).input)
          + (((output_tokens : ℚ) / 1000000 * (getPricing model).output)
            + (match (getPricing model).cached_input with
              | some ci => if 0 < cached_tokens ∧ ci ≠ 0
                  then ((cached_tokens : ℚ) / 1000000) * ci else 0
              | none => 0)) := by ring
    rw [hassoc, round8_add_scaled _ _ nA hA, round8_add_scaled _ _ nB hB,
      round8_of_scaled _ nA hA, round8_of_scaled _ nB hB]
    ring
  · intro hnone
    have hm : PRICING.lookup "gpt-5-mini" = some ⟨0.25, 2.00, some 0.025⟩ := by
      simp [PRICING, List.lookup]
    simp [getPricing, hnone, hm, defaultPricing]
  · intro exc dbOk t
    rfl

/-- Witness for C4 at the documented example call
(`calculate_cost('gpt-5-mini', 1000, 500, cached_tokens=2000)`) and at an
unknown model. -/
theorem calculate_cost_spec_witness :
    ((getPricing "gpt-5-mini").cached_input = some 0.025 ∧ 0 < 2000 ∧
      (calculate_cost "gpt-5-mini" 1000 500 2000).cached_cost
        = round8 ((2000 : ℚ) / 1000000 * 0.025)) ∧
    (PRICING.lookup "mystery-model" = none ∧
      getPricing "mystery-model" = getPricing "gpt-5-mini") := by
  have h1 : (getPricing "gpt-5-mini").cached_input = some 0.025 := by
    simp [getPricing, PRICING, List.lookup]
  have h2 : (0 : ℕ) < 2000 := by norm_num
  have h3 : PRICING.lookup "mystery-model" = none := by
    simp [PRICING, List.lookup]
  exact ⟨⟨h1, h2, (calculate_cost_spec "gpt-5-mini" 1000 500 2000).2.2.1 0.025 h1 h2⟩,
    ⟨h3, (calculate_cost_spec "mystery-model" 1 1 1).2.2.2.2.2.1 h3⟩⟩

/-- C6: on scope exit the tracker attempts exactly one record write; when
the wrapped call raised, the record carries the error and the exception
leaves the scope unchanged; a persistence failure only affects the
`persisted` flag, never what is raised; and a scope whose caller never
called `record` keeps the zero token defaults, so every cost component and
the total cost are 0. -/
theorem tracker_exit_spec (t : TrackerState) (exc : Option String) (dbOk : Bool) :
    (trackerExit t exc dbOk).writeAttempts = 1 ∧
    (∀ e, exc = some e → (trackerExit t exc dbOk).record.error = some e) ∧
    (trackerExit t exc dbOk).raised = exc ∧
    (trackerExit t exc dbOk).persisted = dbOk ∧
    (trackerExit t exc dbOk).record.total_tokens
      = (trackerExit t exc dbOk).record.input_tokens
        + (trackerExit t exc dbOk).record.output_tokens ∧
    (∀ model, (trackerExit (initTracker model) exc dbOk).record.costs
      = ⟨0, 0, 0, 0⟩) := by
  refine ⟨?_, ?_, ?_, ?_, ?_, ?_⟩
  · rcases exc with _ | e <;> rfl
  · rintro e rfl
    rfl
  · rcases exc with _ | e <;> rfl
  · rcases exc with _ | e <;> rfl
  · rcases exc with _ | e <;> rfl
  · intro model
    have hzero : calculate_cost model 0 0 0 = ⟨0, 0, 0, 0⟩ := by
      simp only [calculate_cost]
      rcases h : (getPricing model).cached_input with _ | ci <;>
        simp [h, round8]
    rcases exc with _ | e <;>
      simpa [trackerExit, initTracker] using hzero

/-- Witness for C6: a scope that raised "boom", whose record write then
failed, still records the error, raises "boom" unchanged, and a
never-recorded scope has zero costs. -/
theorem tracker_exit_spec_witness :
    (trackerExit (initTracker "gpt-5-mini") (some "boom") false).record.error = some "boom" ∧
    (trackerExit (initTracker "gpt-5-mini") (some "boom") false).raised = some "boom" ∧
    (trackerExit (initTracker "gpt-5-mini") (some "boom") false).record.costs = ⟨0, 0, 0, 0⟩ := by
  refine ⟨(tracker_exit_spec (initTracker "gpt-5-mini") (some "boom") false).2.1 "boom" rfl,
    (tracker_exit_spec (initTracker "gpt-5-mini") (some "boom") false).2.2.1,
    (tracker_exit_spec (initTracker "gpt-5-mini") (some "boom") false).2.2.2.2.2 "gpt-5-mini"⟩

/-! ### Merge/dedup facts (C7) -/

theorem insertChunk_mem (c : Chunk) (acc : List Chunk) :
    ∀ e ∈ insertChunk c acc, e = c ∨ e ∈ acc := by
  induction acc with
  | nil => simp [insertChunk]
  | cons a rest ih =>
    intro e he
    by_cases hk : chunkKey a = chunkKey c
    · simp only [insertChunk, if_pos hk] at he
      rcases List.mem_cons.mp he with he | he
      · split at he
        · exact Or.inl he
        · exact Or.inr (by simp [he])
      · exact Or.inr (by simp [he])
    · simp only [insertChunk, if_neg hk] at he
      rcases List.mem_cons.mp he with he | he
      · exact Or.inr (by simp [he])
      · rcases ih e he with h | h
        · exact Or.inl h
        · exact Or.inr (by simp [h])

theorem insertChunk_keys (c : Chunk) (acc : List Chunk) (k : String × ℕ) :
    k ∈ (insertChunk c acc).map chunkKey ↔ k = chunkKey c ∨ k ∈ acc.map chunkKey := by
  induction acc with
  | nil => simp [insertChunk]
  | cons a rest ih =>
    by_cases hk : chunkKey a = chunkKey c
    · simp only [insertChunk, if_pos hk]
      have hkey : chunkKey (if a.combined_score < c.combined_score then c else a)
          = chunkKey c := by
        split
        · rfl
        · exact hk
      simp only [List.map_cons, List.mem_cons, hkey, hk]
      tauto
    · simp only [insertChunk, if_neg hk]
      simp only [List.map_cons, List.mem_cons, ih]
      tauto

theorem insertChunk_keys_nodup (c : Chunk) (acc : List Chunk)
    (h : (acc.map chunkKey).Nodup) : ((insertChunk c acc).map chunkKey).Nodup := by
  induction acc with
  | nil => simp [insertChunk]
  | cons a rest ih =>
    simp only [List.map_cons, List.nodup_cons] at h
    by_cases hk : chunkKey a = chunkKey c
    · simp only [insertChunk, if_pos hk]
      have hkey : chunkKey (if a.combined_score < c.combined_score then c else a)
          = chunkKey a := by
        split
        · exact hk.symm
        · rfl
      simp only [List.map_cons, List.nodup_cons, hkey]
      exact ⟨h.1, h.2⟩
    · simp only [insertChunk, if_neg hk]
      simp only [List.map_cons, List.nodup_cons]
      refine ⟨?_, ih h.2⟩
      intro hmem
      rcases (insertChunk_keys c rest (chunkKey a)).mp hmem with h1 | h1
      · exact hk h1
      · exact h.1 h1

theorem insertChunk_best (c : Chunk) (acc : List Chunk)
    (hnd : (acc.map chunkKey).Nodup) :
    ∀ e ∈ insertChunk c acc,
      (e ∈ acc ∧ (chunkKey e ≠ chunkKey c ∨ c.combined_score ≤ e.combined_score)) ∨
      (e = c ∧ ∀ a ∈ acc, chunkKey a = chunkKey c →
        a.combined_score ≤ c.combined_score) := by
  induction acc with
  | nil =>
    intro e he
    simp [insertChunk] at he
    exact Or.inr ⟨he, by simp⟩
  | cons a rest ih =>
    intro e he
    simp only [List.map_cons, List.nodup_cons] at hnd
    by_cases hk : chunkKey a = chunkKey c
    · simp only [insertChunk, if_pos hk] at he
      rcases List.mem_cons.mp he with he | he
      · by_cases hs : a.combined_score < c.combined_score
        · rw [if_pos hs] at he
          subst he
          refine Or.inr ⟨rfl, ?_⟩
          intro x hx hxk
          rcases List.mem_cons.mp hx with rfl | hx
          · exact le_of_lt hs
          · exact absurd (List.mem_map.mpr ⟨x, hx, hxk.trans hk.symm⟩) hnd.1
        · rw [if_neg hs] at he
          subst he
          exact Or.inl ⟨by simp, Or.inr (le_of_not_lt hs)⟩
      · refine Or.inl ⟨List.mem_cons_of_mem a he, Or.inl ?_⟩
        intro hek
        exact hnd.1 (List.mem_map.mpr ⟨e, he, hek.trans hk.symm⟩)
    · simp only [insertChunk, if_neg hk] at he
      rcases List.mem_cons.mp he with rfl | he
      · exact Or.inl ⟨List.mem_cons_self e rest, Or.inl hk⟩
      · rcases ih hnd.2 e he with ⟨hmem, hor⟩ | ⟨rfl, hall⟩
        · exact Or.inl ⟨List.mem_cons_of_mem a hmem, hor⟩
        · refine Or.inr ⟨rfl, ?_⟩
          intro x hx hxk
          rcases List.mem_cons.mp hx with rfl | hx
          · exact absurd hxk hk
          · exact hall x hx hxk

theorem insertChunk_inv (P acc : List Chunk) (c : Chunk) (h : MergeInv P acc) :
    MergeInv (P ++ [c]) (insertChunk c acc) := by
  obtain ⟨hnd, hmax, hcov⟩ := h
  refine ⟨insertChunk_keys_nodup c acc hnd, ?_, ?_⟩
  · intro e he
    rcases insertChunk_best c acc hnd e he with ⟨hmem, hor⟩ | ⟨rfl, hall⟩
    · refine ⟨List.mem_append_left _ (hmax e hmem).1, ?_⟩
      intro d hd hdk
      rcases List.mem_append.mp hd with hd | hd
      · exact (hmax e hmem).2 d hd hdk
      · simp at hd
        subst hd
        rcases hor with h1 | h1
        · exact absurd hdk.symm h1
        · exact h1
    · refine ⟨List.mem_append_right _ (by simp), ?_⟩
      intro d hd hdk
      rcases List.mem_append.mp hd with hd | hd
      · obtain ⟨a, ha, hak⟩ := hcov d hd
        exact le_trans ((hmax a ha).2 d hd hak.symm) (hall a ha (hak.trans hdk))
      · simp at hd
        subst hd
        exact le_refl _
  · intro d hd
    rcases List.mem_append.mp hd with hd | hd
    · obtain ⟨a, ha, hak⟩ := hcov d hd
      have hmem : chunkKey a ∈ (insertChunk c acc).map chunkKey :=
        (insertChunk_keys c acc _).mpr (Or.inr (List.mem_map.mpr ⟨a, ha, rfl⟩))
      obtain ⟨e, he, hek⟩ := List.mem_map.mp hmem
      exact ⟨e, he, hek.trans hak⟩
    · simp at hd
      subst hd
      have hmem : chunkKey d ∈ (insertChunk d acc).map chunkKey :=
        (insertChunk_keys d acc _).mpr (Or.inl rfl)
      obtain ⟨e, he, hek⟩ := List.mem_map.mp hmem
      exact ⟨e, he, hek⟩

theorem foldl_insertChunk_inv (l : List Chunk) :
    ∀ P acc : List Chunk, MergeInv P acc →
      MergeInv (P ++ l) (l.foldl (fun a c => insertChunk c a) acc) := by
  induction l with
  | nil =>
    intro P acc h
    simpa using h
  | cons c rest ih =>
    intro P acc h
    have hstep := ih (P ++ [c]) (insertChunk c acc) (insertChunk_inv P acc c h)
    simpa [List.append_assoc] using hstep

theorem mergeChunkLists_inv (results : List (Option (List Chunk))) :
    MergeInv (allChunks results) (mergeChunkLists results) := by
  suffices h : ∀ P acc, MergeInv P acc →
      MergeInv (P ++ allChunks results)
        (results.foldl (fun acc r =>
          match r with
          | none => acc
          | some l => l.foldl (fun a c => insertChunk c a) acc) acc) by
    simpa [mergeChunkLists] using h [] [] ⟨by simp, by simp, by simp⟩
  induction results with
  | nil =>
    intro P acc h
    simpa [allChunks] using h
  | cons r rest ih =>
    intro P acc h
    rcases r with _ | l
    · simpa [allChunks] using ih P acc h
    · have h1 := foldl_insertChunk_inv l P acc h
      have h2 := ih (P ++ l) _ h1
      simpa [allChunks, List.append_assoc] using h2

instance : IsTotal Chunk scoreDesc :=
  ⟨fun a b => le_total b.combined_score a.combined_score⟩

instance : IsTrans Chunk scoreDesc :=
  ⟨fun _ _ _ h1 h2 => le_trans h2 h1⟩

/-- C7: the merged RAG result of `multi_query_search` holds exactly one
chunk per `(document_id, chunk_index)` key (no duplicate keys, every input
key represented), each merged chunk is an input chunk with the maximal
`combined_score` among the input chunks of its key, and the merged list is
sorted in descending order of `combined_score`. -/
theorem multi_query_search_spec (results : List (Option (List Chunk))) :
    ((multi_query_search results).map chunkKey).Nodup ∧
    (∀ c ∈ multi_query_search results, c ∈ allChunks results ∧
      ∀ d ∈ allChunks results, chunkKey d = chunkKey c →
        d.combined_score ≤ c.combined_score) ∧
    (∀ d ∈ allChunks results, ∃ c ∈ multi_query_search results,
      chunkKey c = chunkKey d) ∧
    (multi_query_search results).Sorted scoreDesc := by
  obtain ⟨hnd, hmax, hcov⟩ := mergeChunkLists_inv results
  have hperm : List.Perm (multi_query_search results) (mergeChunkLists results) :=
    List.perm_insertionSort _ _
  refine ⟨?_, ?_, ?_, List.sorted_insertionSort _ _⟩
  · exact ((hperm.map chunkKey).nodup_iff).mpr hnd
  · intro c hc
    exact hmax c (hperm.mem_iff.mp hc)
  · intro d hd
    obtain ⟨c, hc, hk⟩ := hcov d hd
    exact ⟨c, hperm.mem_iff.mpr hc, hk⟩

/-- Witness for C7: with a failed query and two chunks sharing the key
`("doc1", 0)`, the merge keeps the higher-scored duplicate and sorts
descending; the spec theorem applied at `chunkA2` dominates `chunkA`. -/
theorem multi_query_search_spec_witness :
    multi_query_search sampleResults = [chunkB, chunkA2] ∧
    chunkA2 ∈ multi_query_search sampleResults ∧
    chunkA ∈ allChunks sampleResults ∧
    chunkA.combined_score ≤ chunkA2.combined_score := by
  have h58 : (0.5 : ℚ) < 0.8 := by norm_num
  have h98 : ¬((0.9 : ℚ) ≤ 0.8) := by norm_num
  have heval : multi_query_search sampleResults = [chunkB, chunkA2] := by
    simp [multi_query_search, mergeChunkLists, sampleResults, insertChunk,
      chunkA, chunkB, chunkA2, chunkKey, List.insertionSort, List.orderedInsert,
      scoreDesc, h58, h98]
  have hmem2 : chunkA2 ∈ multi_query_search sampleResults := by
    rw [heval]
    simp
  have hmemA : chunkA ∈ allChunks sampleResults := by
    simp [allChunks, sampleResults]
  have hkey : chunkKey chunkA = chunkKey chunkA2 := rfl
  exact ⟨heval, hmem2, hmemA,
    ((multi_query_search_spec sampleResults).2.1 chunkA2 hmem2).2 chunkA hmemA hkey⟩

/-- C8 counterexample: (1) with no stored summary and only 2 messages the
code regenerates, though the claim's policy licenses no regeneration
there (clause (a) requires at least 5 messages); (2) with a stored summary
30 hours old and 4 messages the claim's clause (c) demands regeneration,
but the code returns nothing (neither a regeneration nor the cached
summary). -/
theorem summary_refresh_claim_counterexample :
    (summary_refresh_decision none 2 = .regenerate ∧ ¬claimed_regenerate none 2) ∧
    (claimed_regenerate (some ⟨0, some 30⟩) 4 ∧
      summary_refresh_decision (some ⟨0, some 30⟩) 4 = .nothing) := by
  refine ⟨⟨rfl, ?_⟩, ⟨?_, ?_⟩⟩
  · rintro (⟨-, h5⟩ | ⟨s, hs, -⟩ | ⟨s, hs, -⟩)
    · omega
    · exact Option.noConfusion hs
    · exact Option.noConfusion hs
  · exact Or.inr (Or.inr ⟨⟨0, some 30⟩, rfl, 30, rfl, by norm_num⟩)
  · simp [summary_refresh_decision]

/-- C8 amended: the summary is regenerated exactly when no summary is
stored (regardless of message count), or a summary is stored, the
conversation has at least 5 messages, and at least 10 new messages arrived
or the summary is older than 24 hours; when a summary is stored and there
are fewer than 5 messages nothing is returned; in the remaining cases the
cached summary is returned unchanged. -/
theorem summary_refresh_decision_spec (existing : Option StoredSummary) (n : ℕ) :
    (summary_refresh_decision existing n = .regenerate ↔
      existing = none ∨ ∃ s, existing = some s ∧ 5 ≤ n ∧
        (10 ≤ (n : ℤ) - s.message_count ∨ ∃ a, s.age_hours = some a ∧ 24 < a)) ∧
    (summary_refresh_decision existing n = .nothing ↔
      ∃ s, existing = some s ∧ n < 5) ∧
    (summary_refresh_decision existing n = .cached ↔
      ∃ s, existing = some s ∧ 5 ≤ n ∧
        ¬(10 ≤ (n : ℤ) - s.message_count ∨ ∃ a, s.age_hours = some a ∧ 24 < a)) := by
  rcases existing with _ | s
  · refine ⟨?_, ?_, ?_⟩ <;> simp [summary_refresh_decision]
  · by_cases h5 : n < 5
    · have h5' : ¬(5 ≤ n) := by omega
      refine ⟨?_, ?_, ?_⟩ <;> simp [summary_refresh_decision, h5, h5']
    · have h5' : (5 : ℕ) ≤ n := by omega
      by_cases hA : 10 ≤ (n : ℤ) - s.message_count
      · refine ⟨?_, ?_, ?_⟩ <;> simp [summary_refresh_decision, h5, h5', hA]
      · rcases hage : s.age_hours with _ | a
        · refine ⟨?_, ?_, ?_⟩ <;> simp [summary_refresh_decision, h5, h5', hA, hage]
          omega
        · by_cases hB : (24 : ℚ) < a
          · refine ⟨?_, ?_, ?_⟩ <;> simp [summary_refresh_decision, h5, h5', hA, hage, hB]
          · refine ⟨?_, ?_, ?_⟩ <;> simp [summary_refresh_decision, h5, h5', hA, hage, hB]
            exact ⟨by omega, le_of_not_lt hB⟩

/-! ### String-replacement facts (C9) -/

theorem isPrefL_iff (p : List Char) : ∀ s, isPrefL p s = true ↔ ∃ r, s = p ++ r := by
  induction p with
  | nil =>
    intro s
    simp [isPrefL]
  | cons a p' ih =>
    intro s
    rcases s with _ | ⟨b, s'⟩
    · simp [isPrefL]
    · simp only [isPrefL, Bool.and_eq_true, beq_iff_eq, ih, List.cons_append,
        List.cons.injEq]
      constructor
      · rintro ⟨hab, r, hr⟩
        exact ⟨r, hab.symm, hr⟩
      · rintro ⟨r, hab, hr⟩
        exact ⟨hab.symm, r, hr⟩

theorem occursIn_append_right (p l r : List Char) (h : OccursIn p r) :
    OccursIn p (l ++ r) := by
  obtain ⟨u, v, rfl⟩ := h
  exact ⟨l ++ u, v, by simp⟩

theorem occursIn_cons (p : List Char) (a : Char) (t : List Char) (h : OccursIn p t) :
    OccursIn p (a :: t) := by
  obtain ⟨u, v, rfl⟩ := h
  exact ⟨a :: u, v, rfl⟩

theorem occurs_through_clean (x l : List Char) :
    ∀ r, (∀ c ∈ l, c ≠ '\x7b') → OccursIn ('\x7b' :: x) (l ++ r) →
      OccursIn ('\x7b' :: x) r := by
  induction l with
  | nil =>
    intro r _ h
    simpa using h
  | cons c l' ih =>
    intro r hcl h
    obtain ⟨u, v, heq⟩ := h
    rcases u with _ | ⟨c', u'⟩
    · simp at heq
      exact absurd heq.1 (hcl c (by simp))
    · simp at heq
      exact ih r (fun d hd => hcl d (by simp [hd])) ⟨u', v, by simpa using heq.2⟩

theorem replaceAllL_cons_no_match (needle repl : List Char) (c : Char) (t : List Char)
    (h : isPrefL needle (c :: t) = false) :
    replaceAllL needle repl (c :: t) = c :: replaceAllL needle repl t := by
  simp [replaceAllL, h]

theorem replaceAllL_cons_match (nt repl : List Char) (c : Char) (t : List Char)
    (h : isPrefL ('\x7b' :: nt) (c :: t) = true) :
    replaceAllL ('\x7b' :: nt) repl (c :: t)
      = repl ++ replaceAllL ('\x7b' :: nt) repl (t.drop nt.length) := by
  simp [replaceAllL, h]

theorem replaceAll_clean_prefix (nt repl : List Char) :
    ∀ (q w : List Char), (∀ c ∈ q, c ≠ '\x7b') →
      replaceAllL ('\x7b' :: nt) repl (q ++ w)
        = q ++ replaceAllL ('\x7b' :: nt) repl w := by
  intro q
  induction q with
  | nil =>
    intro w _
    simp
  | cons c q' ih =>
    intro w hq
    have hc : c ≠ '\x7b' := hq c (by simp)
    have hbeq : ('\x7b' == c) = false := beq_eq_false_iff_ne.mpr (Ne.symm hc)
    have hpre : isPrefL ('\x7b' :: nt) (c :: (q' ++ w)) = false := by
      simp [isPrefL, hbeq]
    rw [List.cons_append, replaceAllL_cons_no_match _ _ _ _ hpre,
      ih w (fun d hd => hq d (by simp [hd]))]
    rfl

theorem pref_close_eq : ∀ (x n t : List Char), (∀ c ∈ x, c ≠ '\x7d') →
    (∀ c ∈ n, c ≠ '\x7d') → isPrefL (x ++ ['\x7d']) t = true →
    isPrefL (n ++ ['\x7d']) t = true → x = n := by
  intro x
  induction x with
  | nil =>
    intro n t _ hn h1 h2
    rcases n with _ | ⟨b, n'⟩
    · rfl
    · rcases t with _ | ⟨c, t'⟩
      · simp [isPrefL] at h1
      · simp only [List.nil_append, List.cons_append, isPrefL, Bool.and_eq_true,
          beq_iff_eq] at h1 h2
        exact absurd (h2.1.trans h1.1.symm) (hn b (by simp))
  | cons a x' ih =>
    intro n t hx hn h1 h2
    rcases t with _ | ⟨c, t'⟩
    · simp [isPrefL] at h1
    · simp only [List.cons_append, isPrefL, Bool.and_eq_true, beq_iff_eq] at h1
      rcases n with _ | ⟨b, n'⟩
      · simp only [List.nil_append, isPrefL, Bool.and_eq_true, beq_iff_eq] at h2
        exact absurd (h1.1.trans h2.1.symm) (hx a (by simp))
      · simp only [List.cons_append, isPrefL, Bool.and_eq_true, beq_iff_eq] at h2
        have hx' : x' = n' := ih n' t' (fun d hd => hx d (by simp [hd]))
          (fun d hd => hn d (by simp [hd])) h1.2 h2.2
        rw [hx', h1.1.trans h2.1.symm]

theorem replaceAll_keeps (lx ln repl : List Char) (hx : braceFree lx)
    (hn : braceFree ln) (hxn : lx ≠ ln) :
    ∀ N s, s.length ≤ N → OccursIn ('\x7b' :: (lx ++ ['\x7d'])) s →
      OccursIn ('\x7b' :: (lx ++ ['\x7d']))
        (replaceAllL ('\x7b' :: (ln ++ ['\x7d'])) repl s) := by
  have hclean_n : ∀ c ∈ ln ++ ['\x7d'], c ≠ '\x7b' := by
    intro c hc
    rcases List.mem_append.mp hc with hc | hc
    · exact (hn c hc).1
    · simp at hc
      subst hc
      decide
  have hclean_x : ∀ c ∈ lx ++ ['\x7d'], c ≠ '\x7b' := by
    intro c hc
    rcases List.mem_append.mp hc with hc | hc
    · exact (hx c hc).1
    · simp at hc
      subst hc
      decide
  intro N
  induction N with
  | zero =>
    intro s hlen hocc
    have hs : s = [] := List.length_eq_zero.mp (Nat.le_zero.mp hlen)
    subst hs
    obtain ⟨u, v, heq⟩ := hocc
    simp at heq
  | succ N ih =>
    intro s hlen hocc
    rcases s with _ | ⟨a, t⟩
    · obtain ⟨u, v, heq⟩ := hocc
      simp at heq
    · by_cases hpre : isPrefL ('\x7b' :: (ln ++ ['\x7d'])) (a :: t) = true
      · obtain ⟨rest, hrest⟩ := (isPrefL_iff _ _).mp hpre
        simp only [List.cons_append, List.cons.injEq] at hrest
        obtain ⟨ha, ht⟩ := hrest
        have hdrop : t.drop (ln ++ ['\x7d']).length = rest := by
          rw [ht, List.drop_left]
        rw [replaceAllL_cons_match _ _ _ _ hpre, hdrop]
        obtain ⟨u, v, heq⟩ := hocc
        rcases u with _ | ⟨c, u'⟩
        · -- the placeholder of x would itself be a prefix: impossible, x ≠ n
          have hpx : isPrefL ('\x7b' :: (lx ++ ['\x7d'])) (a :: t) = true :=
            (isPrefL_iff _ _).mpr ⟨v, by simpa using heq⟩
          simp only [isPrefL, Bool.and_eq_true, beq_iff_eq] at hpx
          have hpn : isPrefL (ln ++ ['\x7d']) t = true := by
            rw [ht]
            exact (isPrefL_iff _ _).mpr ⟨rest, rfl⟩
          exact absurd
            (pref_close_eq lx ln t (fun d hd => (hx d hd).2) (fun d hd => (hn d hd).2)
              hpx.2 hpn) hxn
        · have hocc_t : OccursIn ('\x7b' :: (lx ++ ['\x7d'])) t := by
            simp only [List.cons_append, List.cons.injEq] at heq
            exact ⟨u', v, by simpa using heq.2⟩
          have hocc_rest : OccursIn ('\x7b' :: (lx ++ ['\x7d'])) rest :=
            occurs_through_clean (lx ++ ['\x7d']) (ln ++ ['\x7d']) rest hclean_n
              (ht ▸ hocc_t)
          have hlen_rest : rest.length ≤ N := by
            have h1 : (a :: t).length ≤ N + 1 := hlen
            have h2 : t.length = (ln ++ ['\x7d']).length + rest.length := by
              rw [ht, List.length_append]
            simp [List.length_append] at h1 h2
            omega
          exact occursIn_append_right _ repl _ (ih rest hlen_rest hocc_rest)
      · rw [replaceAllL_cons_no_match _ _ _ _ (Bool.not_eq_true _ ▸ hpre)]
        obtain ⟨u, v, heq⟩ := hocc
        rcases u with _ | ⟨c, u'⟩
        · simp only [List.nil_append, List.cons_append, List.cons.injEq] at heq
          obtain ⟨ha, ht⟩ := heq
          rw [ht, replaceAll_clean_prefix (ln ++ ['\x7d']) repl (lx ++ ['\x7d']) v hclean_x]
          exact ⟨[], replaceAllL ('\x7b' :: (ln ++ ['\x7d'])) repl v, by rw [ha]; simp⟩
        · have hocc_t : OccursIn ('\x7b' :: (lx ++ ['\x7d'])) t := by
            simp only [List.cons_append, List.cons.injEq] at heq
            exact ⟨u', v, by simpa using heq.2⟩
          have hlen_t : t.length ≤ N := Nat.le_of_succ_le_succ hlen
          exact occursIn_cons _ _ _ (ih t hlen_t hocc_t)

/-- One replacement of a different, brace-free variable's placeholder keeps
every occurrence of `placeholderL x`. -/
theorem replaceAll_keeps_placeholder (x n : String) (repl : List Char)
    (hx : braceFree x.toList) (hn : braceFree n.toList)
    (hxn : x.toList ≠ n.toList) (s : List Char)
    (hocc : OccursIn (placeholderL x) s) :
    OccursIn (placeholderL x) (replaceAllL (placeholderL n) repl s) := by
  simpa [placeholderL] using
    replaceAll_keeps x.toList n.toList repl hx hn hxn s.length s le_rfl
      (by simpa [placeholderL] using hocc)

theorem injectSystemVariables_keeps (x : String) (hx : braceFree x.toList)
    (sysVars : List (String × Option String))
    (hvars : ∀ nv ∈ sysVars, braceFree nv.1.toList ∧ nv.1.toList ≠ x.toList) :
    ∀ s, OccursIn (placeholderL x) s →
      OccursIn (placeholderL x) (injectSystemVariables sysVars s) := by
  induction sysVars with
  | nil =>
    intro s h
    simpa [injectSystemVariables] using h
  | cons nv rest ih =>
    intro s h
    have hrest : ∀ nv ∈ rest, braceFree nv.1.toList ∧ nv.1.toList ≠ x.toList :=
      fun v hv => hvars v (by simp [hv])
    have hstep : OccursIn (placeholderL x)
        (match nv.2 with
          | none => s
          | some v => replaceAllL (placeholderL nv.1) v.toList s) := by
      rcases hv : nv.2 with _ | v
      · exact h
      · exact replaceAll_keeps_placeholder x nv.1 v.toList hx
          (hvars nv (by simp)).1 (fun he => (hvars nv (by simp)).2 he.symm) s h
    simpa [injectSystemVariables] using ih hrest _ hstep

theorem injectCustomVariables_keeps (x : String) (hx : braceFree x.toList)
    (customVars : List (String × String))
    (hvars : ∀ nv ∈ customVars, braceFree nv.1.toList ∧ nv.1.toList ≠ x.toList) :
    ∀ s, OccursIn (placeholderL x) s →
      OccursIn (placeholderL x) (injectCustomVariables customVars s) := by
  induction customVars with
  | nil =>
    intro s h
    simpa [injectCustomVariables] using h
  | cons nv rest ih =>
    intro s h
    have hrest : ∀ nv ∈ rest, braceFree nv.1.toList ∧ nv.1.toList ≠ x.toList :=
      fun v hv => hvars v (by simp [hv])
    have hstep : OccursIn (placeholderL x)
        (replaceAllL (placeholderL nv.1) nv.2.toList s) :=
      replaceAll_keeps_placeholder x nv.1 nv.2.toList hx
        (hvars nv (by simp)).1 (fun he => (hvars nv (by simp)).2 he.symm) s h
    simpa [injectCustomVariables] using ih hrest _ hstep

/-- C9 counterexample: with `enable_dynamic_variables = false` the custom
variable `tone` is still interpolated, so the claim that interpolation
operates only when the flag is true is false at this input. -/
theorem interpolation_flag_counterexample :
    composeInterpolation false [] [("tone", "formal")] "Be \x7btone\x7d.".toList
      = "Be formal.".toList ∧
    "Be formal.".toList ≠ "Be \x7btone\x7d.".toList := by
  constructor
  · simp [composeInterpolation, injectCustomVariables, replaceAllL,
      placeholderL, isPrefL]
  · decide

/-- C9 amended: only SYSTEM-variable interpolation is gated by
`enable_dynamic_variables`; custom variables are interpolated
unconditionally, after the system variables; and a placeholder whose
(brace-free) name matches no system or custom variable still occurs in the
composed prompt. -/
theorem composeInterpolation_spec (sysVars : List (String × Option String))
    (customVars : List (String × String)) (base : List Char) :
    composeInterpolation false sysVars customVars base
      = injectCustomVariables customVars base ∧
    composeInterpolation true sysVars customVars base
      = injectCustomVariables customVars (injectSystemVariables sysVars base) ∧
    (∀ x : String, braceFree x.toList →
      (∀ nv ∈ sysVars, braceFree nv.1.toList ∧ nv.1.toList ≠ x.toList) →
      (∀ nv ∈ customVars, braceFree nv.1.toList ∧ nv.1.toList ≠ x.toList) →
      OccursIn (placeholderL x) base →
      OccursIn (placeholderL x) (composeInterpolation true sysVars customVars base) ∧
      OccursIn (placeholderL x) (composeInterpolation false sysVars customVars base)) := by
  refine ⟨rfl, rfl, ?_⟩
  intro x hx hsys hcustom hocc
  constructor
  · exact injectCustomVariables_keeps x hx customVars hcustom _
      (injectSystemVariables_keeps x hx sysVars hsys base hocc)
  · exact injectCustomVariables_keeps x hx customVars hcustom _ hocc

/-- Witness for C9 amended: with a system variable `customer_name`, a
custom variable `tone` and the unmatched placeholder `\x7bqueso\x7d`, the
unmatched placeholder survives composition with the flag on. -/
theorem composeInterpolation_spec_witness :
    braceFree "queso".toList ∧
    OccursIn (placeholderL "queso")
      (composeInterpolation true [("customer_name", some "Ana")]
        [("tone", "formal")] baseC9) := by
  have hx : braceFree "queso".toList := by
    intro c hc
    fin_cases hc <;> exact ⟨by decide, by decide⟩
  have hsys : ∀ nv ∈ [("customer_name", (some "Ana" : Option String))],
      braceFree nv.1.toList ∧ nv.1.toList ≠ "queso".toList := by
    intro nv hnv
    fin_cases hnv
    refine ⟨?_, by decide⟩
    intro c hc
    fin_cases hc <;> exact ⟨by decide, by decide⟩
  have hcustom : ∀ nv ∈ [("tone", "formal")],
      braceFree nv.1.toList ∧ nv.1.toList ≠ "queso".toList := by
    intro nv hnv
    fin_cases hnv
    refine ⟨?_, by decide⟩
    intro c hc
    fin_cases hc <;> exact ⟨by decide, by decide⟩
  have hocc : OccursIn (placeholderL "queso") baseC9 :=
    ⟨"Hola \x7bcustomer_name\x7d, sé \x7btone\x7d, deja ".toList, ".".toList, by decide⟩
  exact ⟨hx, ((composeInterpolation_spec [("customer_name", some "Ana")]
    [("tone", "formal")] baseC9).2.2 "queso" hx hsys hcustom hocc).1⟩

theorem smart_router_detect_some (msg : List Char) (pc : PatClass)
    (h : detectClass (lowerL msg) = some pc) :
    (smart_router_node (create_initial_state msg)).confidence = some 0.95 ∧
    (smart_router_node (create_initial_state msg)).use_full_orchestrator = some false := by
  unfold smart_router_node
  have hlast : (humanMessages (create_initial_state msg)).getLast?
      = some ⟨.human, msg⟩ := by
    simp [humanMessages, create_initial_state]
  simp only [hlast]
  cases pc <;> simp [h, visit]

theorem detectClass_eq (content : List Char) :
    detectClass content =
      (if classMatch .greeting content = true then some .greeting
      else if classMatch .farewell content = true then some .farewell
      else if classMatch .thanks content = true then some .thanks
      else if classMatch .request_human content = true then some .request_human
      else none) := by
  have c1 : (PatClass.farewell == PatClass.greeting) = false := by decide
  have c2 : (PatClass.thanks == PatClass.greeting) = false := by decide
  have c3 : (PatClass.thanks == PatClass.farewell) = false := by decide
  have c4 : (PatClass.request_human == PatClass.greeting) = false := by decide
  have c5 : (PatClass.request_human == PatClass.farewell) = false := by decide
  have c6 : (PatClass.request_human == PatClass.thanks) = false := by decide
  have e1 : classMatch .greeting content
      = (["hola".toList, "buenos días".toList, "buenas tardes".toList,
          "buenas noches".toList, "hey".toList, "hi".toList, "buenas".toList].any
          (fun kw => containsL kw content)) := by
    simp [classMatch, OBVIOUS_PATTERNS, List.lookup, c1, c2, c3, c4, c5, c6]
  have e2 : classMatch .farewell content
      = (["adiós".toList, "adios".toList, "chao".toList, "chau".toList,
          "hasta luego".toList, "bye".toList, "nos vemos".toList].any
          (fun kw => containsL kw content)) := by
    simp [classMatch, OBVIOUS_PATTERNS, List.lookup, c1, c2, c3, c4, c5, c6]
  have e3 : classMatch .thanks content
      = (["gracias".toList, "thank".toList, "thanks".toList, "grazie".toList,
          "muchas gracias".toList].any (fun kw => containsL kw content)) := by
    simp [classMatch, OBVIOUS_PATTERNS, List.lookup, c1, c2, c3, c4, c5, c6]
  have e4 : classMatch .request_human content
      = (["hablar con".toList, "persona".toList, "humano".toList, "agente".toList,
          "operador".toList, "asesor".toList].any (fun kw => containsL kw content)) := by
    simp [classMatch, OBVIOUS_PATTERNS, List.lookup, c1, c2, c3, c4, c5, c6]
  unfold detectClass OBVIOUS_PATTERNS
  by_cases hg : classMatch .greeting content = true
  · rw [List.find?_cons_of_pos _ (by rw [← e1]; exact hg)]
    simp [hg]
  · rw [List.find?_cons_of_neg _ (by rw [← e1]; simpa using hg)]
    by_cases hf : classMatch .farewell content = true
    · rw [List.find?_cons_of_pos _ (by rw [← e2]; exact hf)]
      simp [hg, hf]
    · rw [List.find?_cons_of_neg _ (by rw [← e2]; simpa using hf)]
      by_cases ht : classMatch .thanks content = true
      · rw [List.find?_cons_of_pos _ (by rw [← e3]; exact ht)]
        simp [hg, hf, ht]
      · rw [List.find?_cons_of_neg _ (by rw [← e3]; simpa using ht)]
        by_cases hr : classMatch .request_human content = true
        · rw [List.find?_cons_of_pos _ (by rw [← e4]; exact hr)]
          simp [hg, hf, ht, hr]
        · rw [List.find?_cons_of_neg _ (by rw [← e4]; simpa using hr)]
          simp [hg, hf, ht, hr]

/-- C10: the smart router tests the pattern sets in the fixed order
greeting, farewell, thanks, request_human, firing on the first set with a
keyword occurring in the lowercased last human message; on any match the
fast-path plan (confidence 0.95, `use_full_orchestrator = false`) is
applied and the orchestrator never runs — the graph goes straight to
`respond`. -/
theorem smart_router_first_match (msg : List Char) (o : Oracle) :
    (detectClass (lowerL msg) = some .greeting ↔
      classMatch .greeting (lowerL msg) = true) ∧
    (detectClass (lowerL msg) = some .farewell ↔
      (classMatch .greeting (lowerL msg) = false ∧
        classMatch .farewell (lowerL msg) = true)) ∧
    (detectClass (lowerL msg) = some .thanks ↔
      (classMatch .greeting (lowerL msg) = false ∧
        classMatch .farewell (lowerL msg) = false ∧
        classMatch .thanks (lowerL msg) = true)) ∧
    (detectClass (lowerL msg) = some .request_human ↔
      (classMatch .greeting (lowerL msg) = false ∧
        classMatch .farewell (lowerL msg) = false ∧
        classMatch .thanks (lowerL msg) = false ∧
        classMatch .request_human (lowerL msg) = true)) ∧
    (detectClass (lowerL msg) = none ↔
      (classMatch .greeting (lowerL msg) = false ∧
        classMatch .farewell (lowerL msg) = false ∧
        classMatch .thanks (lowerL msg) = false ∧
        classMatch .request_human (lowerL msg) = false)) ∧
    (detectClass (lowerL msg) ≠ none →
      (smart_router_node (create_initial_state msg)).confidence = some 0.95 ∧
      (smart_router_node (create_initial_state msg)).use_full_orchestrator = some false ∧
      (run_agent_graph msg o).nodes_visited = [.smart_router, .respond] ∧
      NName.orchestrator ∉ (run_agent_graph msg o).nodes_visited) := by
  refine ⟨?_, ?_, ?_, ?_, ?_, ?_⟩
  case _ | _ | _ | _ | _ =>
    by_cases hg : classMatch .greeting (lowerL msg) = true <;>
    by_cases hf : classMatch .farewell (lowerL msg) = true <;>
    by_cases ht : classMatch .thanks (lowerL msg) = true <;>
    by_cases hr : classMatch .request_human (lowerL msg) = true <;>
    simp [detectClass_eq, hg, hf, ht, hr]
  case _ =>
    intro hne
    rcases hd : detectClass (lowerL msg) with _ | pc
    · exact absurd hd hne
    obtain ⟨hconf, hfull⟩ := smart_router_detect_some msg pc hd
    refine ⟨hconf, hfull, ?_⟩
    have hroute : route_after_smart_router (smart_router_node (create_initial_state msg))
        = true := by
      simp [route_after_smart_router, hfull]
    obtain ⟨hsv, -⟩ := smart_router_init_fields msg
    obtain ⟨tail, hv, -, -, hhigh⟩ :=
      respondPhase_shape o (smart_router_node (create_initial_state msg))
    have htail : tail = [] := by
      apply hhigh
      rw [hconf]
      norm_num
    have hvis : (run_agent_graph msg o).nodes_visited = [.smart_router, .respond] := by
      unfold run_agent_graph
      simp only [hroute, if_true]
      rw [hv, htail, hsv]
      rfl
    rw [hvis]
    simp

/-- Witness for C10: "hola, quiero hablar con una persona" matches both
the greeting and the request_human pattern sets; the earlier set (greeting)
wins and the orchestrator is bypassed. -/
theorem smart_router_first_match_witness :
    classMatch .greeting (lowerL "hola, quiero hablar con una persona".toList) = true ∧
    classMatch .request_human (lowerL "hola, quiero hablar con una persona".toList) = true ∧
    detectClass (lowerL "hola, quiero hablar con una persona".toList) = some .greeting ∧
    (run_agent_graph "hola, quiero hablar con una persona".toList noCallOracle).nodes_visited
      = [.smart_router, .respond] := by
  have h1 : classMatch .greeting
      (lowerL "hola, quiero hablar con una persona".toList) = true := by decide
  have h2 : classMatch .request_human
      (lowerL "hola, quiero hablar con una persona".toList) = true := by decide
  have hdet : detectClass (lowerL "hola, quiero hablar con una persona".toList)
      = some .greeting :=
    (smart_router_first_match "hola, quiero hablar con una persona".toList
      noCallOracle).1.mpr h1
  have hne : detectClass (lowerL "hola, quiero hablar con una persona".toList) ≠ none := by
    rw [hdet]
    simp
  exact ⟨h1, h2, hdet,
    ((smart_router_first_match "hola, quiero hablar con una persona".toList
      noCallOracle).2.2.2.2.2 hne).2.2.1⟩
